import Mathlib

/-!
# AmongTheStars: entity simulation core

A shallow embedding of `src/main.cpp` (vector utilities, `Movable`, `GameObject`,
`Player`, `Spaceship`, `Asteroid`, `checkCollisions`, `Asteroids`) together with
theorems about the collision resolver, the spatial-hash broad-phase, the
population manager and the player's resource model.

Modelling conventions.

* C++ `float` values are exact rationals (`ℚ`): arithmetic is the ideal
  arithmetic of the formulas in the source, without rounding, NaN or infinity.
* `std::sqrt` is a library function outside the repository.  It is a parameter
  `sqrtf : ℚ → ℚ` of every definition whose source calls it; theorems state the
  facts about `sqrtf` they rely on as hypotheses at the points where it is called.
* Division is the total division of `ℚ`.  The source divides only in `normalize`;
  `normalizeChecked` makes the case of a zero length explicit.
* `rand()` is a finite list of non-negative draws consumed from the front; a
  computation that needs a draw when none is left yields `none`.
* SFML (`sf::Sprite`, `sf::FloatRect`) is an external library; the part of it the
  source relies on (global bounds of an unrotated sprite, rectangle intersection)
  is modelled by `Sprite.getGlobalBounds` and `FloatRect.intersects`.
* Rendering, text and progress-bar members carry no simulation state and are
  left out of the records.
-/

namespace AmongTheStars

/-! ## Vector math utilities -/

/-- The type `sf::Vector2f`. -/
structure Vector2f where
  x : ℚ
  y : ℚ
deriving DecidableEq

/-- The type `sf::Vector2i`. -/
structure Vector2i where
  x : Int
  y : Int
deriving DecidableEq

namespace Vector2f

/-- Component-wise sum, `operator+`. -/
def add (a b : Vector2f) : Vector2f := ⟨a.x + b.x, a.y + b.y⟩

/-- Component-wise difference, `operator-`. -/
def sub (a b : Vector2f) : Vector2f := ⟨a.x - b.x, a.y - b.y⟩

/-- Unary minus. -/
def neg (a : Vector2f) : Vector2f := ⟨-a.x, -a.y⟩

/-- Vector times scalar, `v * s`. -/
def scale (a : Vector2f) (s : ℚ) : Vector2f := ⟨a.x * s, a.y * s⟩

/-- Scalar times vector, `s * v`. -/
def smul (s : ℚ) (a : Vector2f) : Vector2f := ⟨s * a.x, s * a.y⟩

/-- Vector divided by scalar, `v / s`. -/
def div (a : Vector2f) (s : ℚ) : Vector2f := ⟨a.x / s, a.y / s⟩

end Vector2f

/-- `VecLength(vec)`: `std::sqrt(vec.x * vec.x + vec.y * vec.y)`. -/
def VecLength (sqrtf : ℚ → ℚ) (vec : Vector2f) : ℚ :=
  sqrtf (vec.x * vec.x + vec.y * vec.y)

/-- `normalize(vec)`: `vec /= VecLength(vec)`; the source has no zero-length guard. -/
def normalize (sqrtf : ℚ → ℚ) (vec : Vector2f) : Vector2f :=
  let len := VecLength sqrtf vec
  vec.div len

/-- `PointLen(p0, p1)`: length of `p0 - p1`. -/
def PointLen (sqrtf : ℚ → ℚ) (p0 p1 : Vector2f) : ℚ :=
  let vec : Vector2f := ⟨p0.x - p1.x, p0.y - p1.y⟩
  VecLength sqrtf vec

/-! ## SFML sprites and rectangles -/

/-- The type `sf::FloatRect`. -/
structure FloatRect where
  left : ℚ
  top : ℚ
  width : ℚ
  height : ℚ
deriving DecidableEq

/-- `sf::Rect::intersects`: the rectangles overlap in a region of positive area.
Rectangles of negative size are normalised first, as in SFML. -/
def FloatRect.intersects (r1 r2 : FloatRect) : Bool :=
  let r1MinX := min r1.left (r1.left + r1.width)
  let r1MaxX := max r1.left (r1.left + r1.width)
  let r1MinY := min r1.top (r1.top + r1.height)
  let r1MaxY := max r1.top (r1.top + r1.height)
  let r2MinX := min r2.left (r2.left + r2.width)
  let r2MaxX := max r2.left (r2.left + r2.width)
  let r2MinY := min r2.top (r2.top + r2.height)
  let r2MaxY := max r2.top (r2.top + r2.height)
  let interLeft := max r1MinX r2MinX
  let interTop := max r1MinY r2MinY
  let interRight := min r1MaxX r2MaxX
  let interBottom := min r1MaxY r2MaxY
  decide (interLeft < interRight) && decide (interTop < interBottom)

/-- The state of an unrotated `sf::Sprite` that the simulation reads: position,
origin, scale factors and the size of the texture rectangle. -/
structure Sprite where
  position : Vector2f
  origin : Vector2f
  scale : Vector2f
  rectWidth : Int
  rectHeight : Int
deriving DecidableEq

/-- `sf::Sprite::getGlobalBounds` for an unrotated sprite: the local rectangle
`(0, 0, |rectWidth|, |rectHeight|)` mapped through origin, scale and position. -/
def Sprite.getGlobalBounds (s : Sprite) : FloatRect :=
  let w : ℚ := ((|s.rectWidth| : Int) : ℚ)
  let h : ℚ := ((|s.rectHeight| : Int) : ℚ)
  let x0 := s.position.x - s.origin.x * s.scale.x
  let y0 := s.position.y - s.origin.y * s.scale.y
  let x1 := x0 + w * s.scale.x
  let y1 := y0 + h * s.scale.y
  ⟨min x0 x1, min y0 y1, max x0 x1 - min x0 x1, max y0 y1 - min y0 y1⟩

/-! ## Entity base classes -/

/-- Class `GameObject`: owns the sprite. -/
structure GameObject where
  sprite : Sprite
deriving DecidableEq

/-- `GameObject::intersects`. -/
def GameObject.intersects (self go : GameObject) : Bool :=
  self.sprite.getGlobalBounds.intersects go.sprite.getGlobalBounds

/-- `GameObject::setPosition`. -/
def GameObject.setPosition (self : GameObject) (pos : Vector2f) : GameObject :=
  { self with sprite := { self.sprite with position := pos } }

/-- `GameObject::setDefaultRect`: texture rectangle and centred origin. -/
def GameObject.setDefaultRect (self : GameObject) (width height : Int) : GameObject :=
  { self with sprite := { self.sprite with
      rectWidth := width, rectHeight := height,
      origin := ⟨(width : ℚ) / 2, (height : ℚ) / 2⟩ } }

/-- Struct `inputs`. -/
structure inputs where
  W : Bool := false
  S : Bool := false
  A : Bool := false
  D : Bool := false
  SPACE : Bool := false
deriving DecidableEq

/-- Class `Movable`: position and the acceleration accumulator. -/
structure Movable where
  pos : Vector2f
  acc : Vector2f := ⟨0, 0⟩
deriving DecidableEq

namespace Movable

/-- `Movable::setPos`. -/
def setPos (self : Movable) (x y : ℚ) : Movable := { self with pos := ⟨x, y⟩ }

/-- `Movable::addAcc(sf::Vector2f)`. -/
def addAcc (self : Movable) (app : Vector2f) : Movable := { self with acc := self.acc.add app }

/-- `Movable::PhysicsTick(dt, maxSpeed)`. -/
def PhysicsTick (sqrtf : ℚ → ℚ) (self : Movable) (dt : ℚ) (maxSpeed : ℚ) : Movable :=
  let acc1 :=
    if maxSpeed ≠ 0 then
      if VecLength sqrtf self.acc > maxSpeed then (normalize sqrtf self.acc).scale maxSpeed
      else self.acc
    else self.acc
  { pos := self.pos.add (acc1.scale dt), acc := acc1 }

/-- `Movable::getInverseAcc`. -/
def getInverseAcc (self : Movable) : Vector2f := self.acc.neg

end Movable

/-! ## Player -/

/-- Class `Player`.  `creationTime` and every clock reading are in seconds. -/
structure Player extends GameObject, Movable where
  dead : Bool := false
  maxSpeed : ℚ := 500
  accTickSpeed : ℚ := 100
  fuel : ℚ := 100
  oxygen : ℚ := 100
  points : ℚ := 0
  dtShip : ℚ := 0
  creationTime : ℚ
deriving DecidableEq

namespace Player

/-- Constructor `Player(texture, pos)`, run when the clock reads `now`: sprite and
`Movable` position at `pos`, texture rectangle 52 x 89 with centred origin, scale
one half, default member values. -/
def new (pos : Vector2f) (now : ℚ) : Player :=
  let go : GameObject :=
    GameObject.setDefaultRect ⟨⟨pos, ⟨0, 0⟩, ⟨1, 1⟩, 0, 0⟩⟩ 52 89
  { toGameObject := { go with sprite := { go.sprite with
        scale := ⟨go.sprite.scale.x * (1 / 2), go.sprite.scale.y * (1 / 2)⟩ } },
    pos := pos,
    creationTime := now }

/-- `Player::Kill`, called when the clock reads `now`. -/
def Kill (self : Player) (now : ℚ) : Player :=
  if self.creationTime - now > 15 then self
  else
    let p := { self with dead := true, fuel := 0, oxygen := 0 }
    { p with toMovable := p.toMovable.addAcc p.toMovable.getInverseAcc }

/-- `Player::isDead`. -/
def isDead (self : Player) : Bool := decide (self.oxygen ≤ 0)

/-- `Player::isWon`. -/
def isWon (self : Player) : Bool := decide (self.dtShip > 30)

/-- `Player::addResources`. -/
def addResources (self : Player) (fuel oxygen : ℚ) : Player :=
  if self.dead then self
  else
    let p := { self with fuel := self.fuel + fuel, oxygen := self.oxygen + oxygen }
    let p := if p.fuel > 100 then { p with fuel := 100 } else p
    if p.oxygen > 100 then { p with oxygen := 100 } else p

/-- `Player::tick(float dt)`.  `internalTick` and `updateUIElements` only move
user-interface members, except that the latter copies the position to the sprite. -/
def tick (sqrtf : ℚ → ℚ) (self : Player) (dt : ℚ) : Player :=
  let p := { self with toMovable := self.toMovable.PhysicsTick sqrtf dt self.maxSpeed }
  let p := { p with oxygen := p.oxygen - dt * 1 }
  let p := if p.fuel = 0 then { p with oxygen := p.oxygen - dt * 4 } else p
  let p := if p.oxygen ≤ 0 then { p with oxygen := 0 } else p
  { p with toGameObject := p.toGameObject.setPosition p.pos }

/-- The requested acceleration `accAppend` that `Player::tick(dt, input)` builds from
the input flags: the four directions add up, and the brake flag then replaces the
sum by the inverse accumulator times `dt`. -/
def inputAcc (self : Player) (dt : ℚ) (input : inputs) : Vector2f :=
  let accAppend : Vector2f := ⟨0, 0⟩
  let accAppend := if input.W then { accAppend with y := accAppend.y - self.accTickSpeed * dt }
    else accAppend
  let accAppend := if input.S then { accAppend with y := accAppend.y + self.accTickSpeed * dt }
    else accAppend
  let accAppend := if input.D then { accAppend with x := accAppend.x + self.accTickSpeed * dt }
    else accAppend
  let accAppend := if input.A then { accAppend with x := accAppend.x - self.accTickSpeed * dt }
    else accAppend
  if input.SPACE then self.toMovable.getInverseAcc.scale dt else accAppend

/-- `Player::tick(float dt, const inputs &input)`. -/
def tickInput (sqrtf : ℚ → ℚ) (self : Player) (dt : ℚ) (input : inputs) : Player :=
  let p := self.tick sqrtf dt
  let p := { p with points := p.fuel * (1 / 5) + p.oxygen * (1 / 2) }
  if p.oxygen = 0 then p
  else
    let accAppend := p.inputAcc dt input
    let p := if VecLength sqrtf accAppend ≠ 0 ∧ p.fuel ≠ 0 then { p with fuel := p.fuel - 5 * dt }
      else p
    let empty := decide (p.fuel ≤ 0)
    let accAppend := if empty then (⟨0, 0⟩ : Vector2f) else accAppend
    let p := if empty then { p with fuel := 0 } else p
    { p with toMovable := p.toMovable.addAcc accAppend }

/-- `Player::updateTimer`. -/
def updateTimer (self : Player) (dt : ℚ) : Player := { self with dtShip := self.dtShip + dt }

/-- `Player::zeroPlayerTimer`. -/
def zeroPlayerTimer (self : Player) : Player := { self with dtShip := 0 }

end Player

/-- The player after `n` successive calls `tick(dt, input)` with the same arguments. -/
def Player.tickInputN (sqrtf : ℚ → ℚ) (dt : ℚ) (input : inputs) : Nat → Player → Player
  | 0, p => p
  | n + 1, p => Player.tickInputN sqrtf dt input n (p.tickInput sqrtf dt input)

/-- The operations that mutate a player's resources. -/
inductive PlayerOp where
  | tick (dt : ℚ)
  | tickInput (dt : ℚ) (input : inputs)
  | addResources (fuel oxygen : ℚ)
  | Kill (now : ℚ)

/-- The calls the interface admits: elapsed time and resource amounts are not negative. -/
def PlayerOp.admissible : PlayerOp → Prop
  | .tick dt => 0 ≤ dt
  | .tickInput dt _ => 0 ≤ dt
  | .addResources fuel oxygen => 0 ≤ fuel ∧ 0 ≤ oxygen
  | .Kill _ => True

/-- Runs one operation on the player. -/
def PlayerOp.run (sqrtf : ℚ → ℚ) (p : Player) : PlayerOp → Player
  | .tick dt => p.tick sqrtf dt
  | .tickInput dt input => p.tickInput sqrtf dt input
  | .addResources fuel oxygen => p.addResources fuel oxygen
  | .Kill now => p.Kill now

/-- Fuel and oxygen both lie in `[0, 100]`. -/
def Player.resourcesInBounds (p : Player) : Prop :=
  (0 ≤ p.fuel ∧ p.fuel ≤ 100) ∧ (0 ≤ p.oxygen ∧ p.oxygen ≤ 100)

/-! ## Objective and obstacles

A level owns exactly one `Player`, so a `Player *` member is either null or the
address of that player: `PlayerRef` is `true` when the pointer is set. -/

/-- Class `Spaceship` (the objective). -/
structure Spaceship extends GameObject, Movable where
  PlayerRef : Bool := false
deriving DecidableEq

/-- Class `Asteroid` (an obstacle).  The static member `isPlayerAttached` is
threaded through the operations that read or write it. -/
structure Asteroid extends GameObject, Movable where
  PlayerRef : Bool := false
  colided : Bool := false
deriving DecidableEq

/-- A pointer to a `GameObject` with its runtime kind, as seen by `dynamic_cast`. -/
inductive Entity where
  | player (p : Player)
  | spaceship (s : Spaceship)
  | asteroid (a : Asteroid)
deriving DecidableEq

/-- The `GameObject` base of an entity. -/
def Entity.toGameObject : Entity → GameObject
  | .player p => p.toGameObject
  | .spaceship s => s.toGameObject
  | .asteroid a => a.toGameObject

namespace Spaceship

/-- `Spaceship::tick`: acts on the referenced player, if any. -/
def tick (self : Spaceship) (player : Player) (dt : ℚ) : Player :=
  if !self.PlayerRef then player
  else
    let player :=
      if !self.toGameObject.intersects player.toGameObject then player.zeroPlayerTimer
      else player
    if self.toGameObject.intersects player.toGameObject then
      (player.updateTimer dt).addResources (2 * dt) (10 * dt)
    else player

/-- `Spaceship::onColision`. -/
def onColision (self : Spaceship) (obj : Entity) (_dt : ℚ) : Spaceship :=
  match obj with
  | .player player =>
    if self.toGameObject.intersects player.toGameObject then { self with PlayerRef := true }
    else self
  | _ => self

end Spaceship

namespace Asteroid

/-- `Asteroid::tick`: moves the asteroid, drags the referenced player along and
clears the collided flag. -/
def tick (sqrtf : ℚ → ℚ) (self : Asteroid) (player : Player) (dt : ℚ) : Asteroid × Player :=
  let lastPos := self.pos
  let a := { self with toMovable := self.toMovable.PhysicsTick sqrtf dt 0 }
  let a := { a with toGameObject := a.toGameObject.setPosition a.pos }
  let offset := a.pos.sub lastPos
  let player :=
    if a.PlayerRef then
      { player with toMovable :=
          player.toMovable.setPos (offset.x + player.pos.x) (offset.y + player.pos.y) }
    else player
  ({ a with colided := false }, player)

/-- The obstacle-obstacle branch of `Asteroid::onColision`: elastic impulse between
`self` and `asteroid`. -/
def collideAsteroid (sqrtf : ℚ → ℚ) (self asteroid : Asteroid) : Asteroid × Asteroid :=
  if !self.colided && !asteroid.colided && self.toGameObject.intersects asteroid.toGameObject then
    let pos1 := self.pos
    let pos2 := asteroid.pos
    let vel1 := self.acc
    let vel2 := asteroid.acc
    let collisionNormal := normalize sqrtf (pos2.sub pos1)
    let relativeVelocity := vel2.sub vel1
    let velocityAlongNormal :=
      relativeVelocity.x * collisionNormal.x + relativeVelocity.y * collisionNormal.y
    if velocityAlongNormal > 0 then (self, asteroid)
    else
      let restitution : ℚ := 4 / 5
      let impulseScalar := -(1 + restitution) * velocityAlongNormal
      let impulseScalar := impulseScalar / 2
      let impulse := Vector2f.smul impulseScalar collisionNormal
      ({ self with acc := self.acc.sub impulse, colided := true },
       { asteroid with toMovable := asteroid.toMovable.addAcc impulse, colided := true })
  else (self, asteroid)

/-- `Asteroid::onColision(obj, dt)` called when the clock reads `now`; returns the
updated `self`, the updated `obj` and the updated static flag `isPlayerAttached`. -/
def onColision (sqrtf : ℚ → ℚ) (self : Asteroid) (obj : Entity) (isPlayerAttached : Bool)
    (now : ℚ) (_dt : ℚ) : Asteroid × Entity × Bool :=
  match obj with
  | .player player =>
    if !isPlayerAttached then
      if self.toGameObject.intersects player.toGameObject then
        ({ self with PlayerRef := true }, .player (player.Kill now), true)
      else (self, obj, isPlayerAttached)
    else (self, obj, isPlayerAttached)
  | .asteroid asteroid =>
    let r := collideAsteroid sqrtf self asteroid
    (r.1, .asteroid r.2, isPlayerAttached)
  | .spaceship _ => (self, obj, isPlayerAttached)

end Asteroid

/-- Virtual dispatch of `onColision` on the runtime kind of `self`: `Player` keeps
the empty `GameObject::onColision`.  Returns the updated `self`, the updated `obj`
and the updated static flag. -/
def Entity.onColision (sqrtf : ℚ → ℚ) (self obj : Entity) (isPlayerAttached : Bool)
    (now : ℚ) (dt : ℚ) : Entity × Entity × Bool :=
  match self with
  | .player _ => (self, obj, isPlayerAttached)
  | .spaceship s => (.spaceship (s.onColision obj dt), obj, isPlayerAttached)
  | .asteroid a =>
    let r := a.onColision sqrtf obj isPlayerAttached now dt
    (.asteroid r.1, r.2.1, r.2.2)

/-- Whether the runtime kind is `Player`. -/
def Entity.isPlayer : Entity → Bool
  | .player _ => true
  | _ => false

/-- The state `(a, b, isPlayerAttached)` after the call `a.onColision(b)`. -/
def resolveAB (sqrtf : ℚ → ℚ) (a b : Entity) (isPlayerAttached : Bool) (now dt : ℚ) :
    Entity × Entity × Bool :=
  Entity.onColision sqrtf a b isPlayerAttached now dt

/-- The state `(a, b, isPlayerAttached)` after the call `b.onColision(a)`. -/
def resolveBA (sqrtf : ℚ → ℚ) (a b : Entity) (isPlayerAttached : Bool) (now dt : ℚ) :
    Entity × Entity × Bool :=
  let r := Entity.onColision sqrtf b a isPlayerAttached now dt
  (r.2.1, r.1, r.2.2)

/-- The `Movable` base of an entity. -/
def Entity.toMovable : Entity → Movable
  | .player p => p.toMovable
  | .spaceship s => s.toMovable
  | .asteroid a => a.toMovable

/-- An obstacle whose sprite and `Movable` position are both `pos`, with velocity
accumulator `vel`, scale one half and a 100 x 100 texture rectangle. -/
def Asteroid.at (pos vel : Vector2f) : Asteroid :=
  { sprite := ⟨pos, ⟨0, 0⟩, ⟨1 / 2, 1 / 2⟩, 100, 100⟩, pos := pos, acc := vel }

/-! ## Spatial-hash broad-phase

Objects are identified by their index in the `objects` vector (distinct
`shared_ptr`s).  `std::map` with `Vector2iComparator` is an association list kept
strictly sorted by that comparator. -/

/-- `static_cast<int>(float)`: truncation toward zero (defined for values in `int` range). -/
def toInt (q : ℚ) : Int := if 0 ≤ q then ⌊q⌋ else ⌈q⌉

/-- The values a C++ `int` can hold. -/
def inIntRange (q : ℚ) : Prop := -2147483648 ≤ toInt q ∧ toInt q ≤ 2147483647

/-- Constant `GRID_SIZE`. -/
def GRID_SIZE : Int := 200

/-- Lambda `getGridCell`: both operations are C++ `int` operations, truncating toward zero. -/
def getGridCell (pos : Vector2f) : Vector2i :=
  ⟨Int.tdiv (toInt pos.x) GRID_SIZE, Int.tdiv (toInt pos.y) GRID_SIZE⟩

/-- `Vector2iComparator::operator()`. -/
def Vector2iComparator (lhs rhs : Vector2i) : Bool :=
  if lhs.x ≠ rhs.x then decide (lhs.x < rhs.x) else decide (lhs.y < rhs.y)

/-- The map `grid`: cells in comparator order, each with its objects in insertion order. -/
abbrev Grid := List (Vector2i × List Nat)

namespace Grid

/-- `grid[cell].push_back(obj)`. -/
def push (cell : Vector2i) (obj : Nat) : Grid → Grid
  | [] => [(cell, [obj])]
  | (c, objs) :: rest =>
    if c = cell then (c, objs ++ [obj]) :: rest
    else if Vector2iComparator cell c then (cell, [obj]) :: (c, objs) :: rest
    else (c, objs) :: push cell obj rest

/-- `grid.count(cell)`. -/
def count (grid : Grid) (cell : Vector2i) : Nat :=
  match grid.find? (fun e => decide (e.1 = cell)) with
  | some _ => 1
  | none => 0

/-- `grid[cell]` for reading. -/
def get (grid : Grid) (cell : Vector2i) : List Nat :=
  match grid.find? (fun e => decide (e.1 = cell)) with
  | some e => e.2
  | none => []

end Grid

/-- The grid is strictly increasing in `Vector2iComparator`, the `std::map` invariant. -/
def Grid.Sorted (grid : Grid) : Prop :=
  grid.Pairwise fun e1 e2 => Vector2iComparator e1.1 e2.1 = true

/-- The indices, counted from `idx`, of the positions that fall into `cell`. -/
def cellMembers (positions : List Vector2f) (idx : Nat) (cell : Vector2i) : List Nat :=
  match positions with
  | [] => []
  | pos :: rest =>
    (if getGridCell pos = cell then [idx] else []) ++ cellMembers rest (idx + 1) cell

/-- The first loop of `checkCollisions`: every object, in order, is pushed into the
cell of its sprite position.  `idx` is the index of the head of `positions`. -/
def placeObjects (positions : List Vector2f) (idx : Nat) (grid : Grid) : Grid :=
  match positions with
  | [] => grid
  | pos :: rest => placeObjects rest (idx + 1) (grid.push (getGridCell pos) idx)

/-- The loop over `i < j` within one cell: calls `cellObjects[i]->onColision(cellObjects[j])`. -/
def withinCellCalls : List Nat → List (Nat × Nat)
  | [] => []
  | obj1 :: rest => rest.map (fun obj2 => (obj1, obj2)) ++ withinCellCalls rest

/-- The loop over `dx`, `dy` in `-1 .. 1` for one cell: for each offset whose cell
exists, `obj1->onColision(obj2)` for `obj1` in the cell, `obj2` in the neighbour,
`obj1 != obj2`. -/
def neighbourCalls (grid : Grid) (cell : Vector2i) (cellObjects : List Nat) : List (Nat × Nat) :=
  ([-1, 0, 1] : List Int).flatMap fun dx =>
    ([-1, 0, 1] : List Int).flatMap fun dy =>
      let neighbor : Vector2i := ⟨cell.x + dx, cell.y + dy⟩
      if grid.count neighbor ≠ 0 then
        cellObjects.flatMap fun obj1 =>
          ((grid.get neighbor).filter fun obj2 => decide (obj1 ≠ obj2)).map fun obj2 => (obj1, obj2)
      else []

/-- The sequence of `onColision` calls `(self, obj)` that `checkCollisions` makes for
objects with the given sprite positions.  The grid is complete before the first
call and no call moves a sprite, so the sequence depends on the positions only. -/
def dispatchCalls (positions : List Vector2f) : List (Nat × Nat) :=
  let grid := placeObjects positions 0 []
  grid.flatMap fun e => withinCellCalls e.2 ++ neighbourCalls grid e.1 e.2

/-- How many times the call `self->onColision(obj)` occurs in a call sequence. -/
def callCount (calls : List (Nat × Nat)) (self obj : Nat) : Nat :=
  calls.countP fun c => decide (c = (self, obj))

/-- One call `objects[i]->onColision(objects[j], dt)` on the shared objects. -/
def dispatchCall (sqrtf : ℚ → ℚ) (now dt : ℚ) (st : List Entity × Bool) (call : Nat × Nat) :
    List Entity × Bool :=
  match st.1[call.1]?, st.1[call.2]? with
  | some self, some obj =>
    let r := Entity.onColision sqrtf self obj st.2 now dt
    ((st.1.set call.1 r.1).set call.2 r.2.1, r.2.2)
  | _, _ => st

/-- `checkCollisions(objects, dt)` run when the clock reads `now`: returns the objects
and the static flag `Asteroid::isPlayerAttached` after all calls. -/
def checkCollisions (sqrtf : ℚ → ℚ) (objects : List Entity) (isPlayerAttached : Bool)
    (now dt : ℚ) : List Entity × Bool :=
  (dispatchCalls (objects.map fun o => o.toGameObject.sprite.position)).foldl
    (dispatchCall sqrtf now dt) (objects, isPlayerAttached)

/-! ## Obstacle population manager -/

/-- One call of `rand()`. -/
def rand : List Nat → Option (Nat × List Nat)
  | [] => none
  | r :: rest => some (r, rest)

/-- Conversion of an out-of-range value to a 32-bit `int` (wrap-around). -/
def toInt32 (z : Int) : Int := (z + 2147483648) % 4294967296 - 2147483648

/-- Constructor `Asteroid()`; `texWidth`, `texHeight` is the size of the asteroid
texture, which the sprite takes as its texture rectangle. -/
def Asteroid.new (texWidth texHeight : Int) (draws : List Nat) : Option (Asteroid × List Nat) := do
  let maxSpeed : Int := 50
  let (r, draws) ← rand draws
  let _x := Int.tmod r maxSpeed
  let (r, draws) ← rand draws
  let xSign := Int.tmod r 2
  let (r, draws) ← rand draws
  let _y := Int.tmod r maxSpeed
  let (r, draws) ← rand draws
  let ySign := Int.tmod r 2
  let max : Int := 2048 * 4
  let (r, draws) ← rand draws
  let posX : ℚ := ((Int.tmod r max : Int) : ℚ) - ((Int.tdiv max 2 : Int) : ℚ)
  let (r, draws) ← rand draws
  let posY : ℚ := ((Int.tmod r max : Int) : ℚ) - ((Int.tdiv max 2 : Int) : ℚ)
  let posX := if |posX| < 150 then posX + ((xSign * 150 : Int) : ℚ) else posX
  let posY := if |posY| < 150 then posY + ((ySign * 150 : Int) : ℚ) else posY
  pure ({ sprite := ⟨⟨0, 0⟩, ⟨0, 0⟩, ⟨1 / 2, 1 / 2⟩, texWidth, texHeight⟩,
          pos := ⟨posX, posY⟩ }, draws)

/-- Class `Asteroids`.  The `target` member is the level's player, passed to the
operations that read it. -/
structure Asteroids where
  maxAsteroids : Int := 10
  maxDistance : Int := 1000
  asteroids : List Asteroid := []

namespace Asteroids

/-- Constructor `Asteroids(target, maxAsteroids)`. -/
def new (maxAsteroids : Int) : Asteroids :=
  { maxAsteroids := 10 + maxAsteroids, maxDistance := 1000, asteroids := [] }

/-- A candidate spawn position: two draws reduced modulo `2 * maxDistance`. -/
def randomPos (maxDistance : Int) (draws : List Nat) : Option (Vector2f × List Nat) := do
  let (r, draws) ← rand draws
  let x : ℚ := ((Int.tmod r (2 * maxDistance) : Int) : ℚ) - (maxDistance : ℚ)
  let (r, draws) ← rand draws
  let y : ℚ := ((Int.tmod r (2 * maxDistance) : Int) : ℚ) - (maxDistance : ℚ)
  pure (⟨x, y⟩, draws)

/-- The rejection loop `while (PointLen(initialPos, targetPos) < 450.0f)`. -/
def rejectLoop (sqrtf : ℚ → ℚ) (maxDistance : Int) (targetPos initialPos : Vector2f)
    (draws : List Nat) : Option (Vector2f × List Nat) :=
  if PointLen sqrtf initialPos targetPos < 450 then
    match draws with
    | r1 :: r2 :: rest =>
      rejectLoop sqrtf maxDistance targetPos
        ⟨((Int.tmod r1 (2 * maxDistance) : Int) : ℚ) - (maxDistance : ℚ),
         ((Int.tmod r2 (2 * maxDistance) : Int) : ℚ) - (maxDistance : ℚ)⟩ rest
    | _ => none
  else some (initialPos, draws)
termination_by draws.length

/-- The body of the spawning loop in `CreateAsteroids`: one new asteroid. -/
def spawnOne (sqrtf : ℚ → ℚ) (texWidth texHeight : Int) (maxDistance : Int)
    (targetPos : Vector2f) (draws : List Nat) : Option (Asteroid × List Nat) := do
  let (asteroid, draws) ← Asteroid.new texWidth texHeight draws
  let (initialPos, draws) ← randomPos maxDistance draws
  let (initialPos, draws) ← rejectLoop sqrtf maxDistance targetPos initialPos draws
  let asteroid := { asteroid with toMovable := asteroid.toMovable.setPos initialPos.x initialPos.y }
  let direction := targetPos.sub initialPos
  let (r, draws) ← rand draws
  let direction := { direction with
    x := direction.x + ((Int.tmod r 200 - 100 : Int) : ℚ) * (1 / 10) }
  let (r, draws) ← rand draws
  let direction := { direction with
    y := direction.y + ((Int.tmod r 200 - 100 : Int) : ℚ) * (1 / 10) }
  let direction := normalize sqrtf direction
  let (r, draws) ← rand draws
  let speed : ℚ := 50 + ((Int.tmod r 50 : Int) : ℚ)
  let velocity := direction.scale speed
  let asteroid := { asteroid with toMovable := asteroid.toMovable.addAcc velocity }
  pure (asteroid, draws)

/-- The loop `while (--toCreate) { ... }`.  A counter that is not positive never
reaches zero by decrements inside `int` range: no result. -/
def createLoop (sqrtf : ℚ → ℚ) (texWidth texHeight : Int) (maxDistance : Int)
    (targetPos : Vector2f) (toCreate : Int) (asteroids : List Asteroid) (draws : List Nat) :
    Option (List Asteroid × List Nat) :=
  if toCreate - 1 = 0 then some (asteroids, draws)
  else if _h : toCreate - 1 < 0 then none
  else
    match spawnOne sqrtf texWidth texHeight maxDistance targetPos draws with
    | none => none
    | some (asteroid, draws) =>
      createLoop sqrtf texWidth texHeight maxDistance targetPos (toCreate - 1)
        (asteroids ++ [asteroid]) draws
termination_by toCreate.toNat
decreasing_by omega

/-- `Asteroids::CreateAsteroids`. -/
def CreateAsteroids (sqrtf : ℚ → ℚ) (texWidth texHeight : Int) (self : Asteroids)
    (target : Movable) (draws : List Nat) : Option (Asteroids × List Nat) :=
  let toCreate : Int := toInt32 (self.maxAsteroids - (self.asteroids.length : Int))
  let targetPos := target.pos
  match createLoop sqrtf texWidth texHeight self.maxDistance targetPos toCreate
      self.asteroids draws with
  | none => none
  | some (asteroids, draws) => some ({ self with asteroids := asteroids }, draws)

/-- The loop `for (auto &asteroid : asteroids) asteroid->tick(df)`, threading the
player that attached asteroids drag along. -/
def tickAll (sqrtf : ℚ → ℚ) (df : ℚ) : List Asteroid → Player → List Asteroid × Player
  | [], player => ([], player)
  | asteroid :: rest, player =>
    let r := asteroid.tick sqrtf player df
    let rs := tickAll sqrtf df rest r.2
    (r.1 :: rs.1, rs.2)

/-- The despawn pass at the head of `Asteroids::tick`: `erase(remove_if(...))`. -/
def despawn (sqrtf : ℚ → ℚ) (self : Asteroids) (target : Movable) : Asteroids :=
  { self with asteroids := self.asteroids.filter fun asteroid =>
      !(decide (PointLen sqrtf target.pos asteroid.pos > (self.maxDistance : ℚ))) }

/-- `Asteroids::tick(df)` with the level's player as `target`.  The comparison
`asteroids.size() < maxAsteroids` is made in `size_t` (64 bits). -/
def tick (sqrtf : ℚ → ℚ) (texWidth texHeight : Int) (self : Asteroids) (player : Player)
    (df : ℚ) (draws : List Nat) : Option (Asteroids × Player × List Nat) :=
  let self := despawn sqrtf self player.toMovable
  let created :=
    if (self.asteroids.length : Int) < self.maxAsteroids % 18446744073709551616 then
      CreateAsteroids sqrtf texWidth texHeight self player.toMovable draws
    else some (self, draws)
  match created with
  | none => none
  | some (self, draws) =>
    let r := tickAll sqrtf df self.asteroids player
    some ({ self with asteroids := r.1 }, r.2, draws)

end Asteroids

/-! ## Frames of the objective -/

/-- One frame seen from the objective: the player's sprite is `frame.1` at the moment
`Spaceship::tick(frame.2)` runs. -/
def Spaceship.frame (self : Spaceship) (player : Player) (frame : GameObject × ℚ) : Player :=
  self.tick { player with toGameObject := frame.1 } frame.2

/-- The player after the objective's ticks over a sequence of frames. -/
def Spaceship.frames (self : Spaceship) (player : Player) (fs : List (GameObject × ℚ)) : Player :=
  fs.foldl self.frame player

/-- The sum of `dt` over the maximal trailing run of frames in which the objective
overlaps the player. -/
def Spaceship.trailingOverlap (self : Spaceship) (fs : List (GameObject × ℚ)) : ℚ :=
  ((fs.reverse.takeWhile fun f => self.toGameObject.intersects f.1).map Prod.snd).sum

/-! ## Division by a zero length

The source divides only in `normalize`.  In the records above the quotient is the
total division of `ℚ`; the definitions below make the zero divisor explicit. -/

/-- `vec /= len` with the outcome of a zero divisor made explicit: a quotient by
`0.0f` is NaN or an infinity, which no rational stands for (`none`). -/
def Vector2f.divChecked (a : Vector2f) (s : ℚ) : Option Vector2f :=
  if s = 0 then none else some (a.div s)

/-- `normalize(vec)` with the division read as `divChecked`. -/
def normalizeChecked (sqrtf : ℚ → ℚ) (vec : Vector2f) : Option Vector2f :=
  let len := VecLength sqrtf vec
  vec.divChecked len

/-- The obstacle-obstacle branch of `Asteroid::onColision` with the collision normal
read through `normalizeChecked`: `none` when the normal is not a finite vector, so that
the comparison and the impulse are computed from NaN or infinite operands. -/
def Asteroid.collideAsteroidChecked (sqrtf : ℚ → ℚ) (self asteroid : Asteroid) :
    Option (Asteroid × Asteroid) :=
  if !self.colided && !asteroid.colided && self.toGameObject.intersects asteroid.toGameObject then
    let pos1 := self.pos
    let pos2 := asteroid.pos
    let vel1 := self.acc
    let vel2 := asteroid.acc
    match normalizeChecked sqrtf (pos2.sub pos1) with
    | none => none
    | some collisionNormal =>
      let relativeVelocity := vel2.sub vel1
      let velocityAlongNormal :=
        relativeVelocity.x * collisionNormal.x + relativeVelocity.y * collisionNormal.y
      if velocityAlongNormal > 0 then some (self, asteroid)
      else
        let restitution : ℚ := 4 / 5
        let impulseScalar := -(1 + restitution) * velocityAlongNormal
        let impulseScalar := impulseScalar / 2
        let impulse := Vector2f.smul impulseScalar collisionNormal
        some ({ self with acc := self.acc.sub impulse, colided := true },
              { asteroid with toMovable := asteroid.toMovable.addAcc impulse, colided := true })
  else some (self, asteroid)

/-! ## The attachment across a level's obstacles -/

/-- `Asteroid::~Asteroid`: the value of the static flag `isPlayerAttached` after the
destructor has run. -/
def Asteroid.destructor (_self : Asteroid) (_isPlayerAttached : Bool) : Bool := false

/-- The state the attachment lives in: the player, the live obstacles and the static
flag `Asteroid::isPlayerAttached`. -/
structure Level where
  player : Player
  obstacles : List Asteroid
  isPlayerAttached : Bool

namespace Level

/-- Collision dispatch of obstacle `i` against the player:
`obstacles[i]->onColision(player, dt)` when the clock reads `now`. -/
def collidePlayer (sqrtf : ℚ → ℚ) (lv : Level) (i : Nat) (now dt : ℚ) : Level :=
  match lv.obstacles[i]? with
  | none => lv
  | some a =>
    let r := a.onColision sqrtf (.player lv.player) lv.isPlayerAttached now dt
    { player := match r.2.1 with
        | .player p => p
        | _ => lv.player,
      obstacles := lv.obstacles.set i r.1,
      isPlayerAttached := r.2.2 }

/-- The tick of obstacle `i`: `obstacles[i]->tick(dt)`. -/
def tickObstacle (sqrtf : ℚ → ℚ) (lv : Level) (i : Nat) (dt : ℚ) : Level :=
  match lv.obstacles[i]? with
  | none => lv
  | some a =>
    let r := a.tick sqrtf lv.player dt
    { lv with player := r.2, obstacles := lv.obstacles.set i r.1 }

/-- The despawn pass of `Asteroids::tick` for the radius `maxDistance`, followed by
the destructors of the erased obstacles (they run once the last `shared_ptr` to an
erased obstacle is dropped). -/
def despawn (sqrtf : ℚ → ℚ) (maxDistance : Int) (lv : Level) : Level :=
  let far := fun (a : Asteroid) => decide (PointLen sqrtf lv.player.pos a.pos > (maxDistance : ℚ))
  { lv with
    obstacles := lv.obstacles.filter fun a => !(far a),
    isPlayerAttached :=
      (lv.obstacles.filter far).foldl (fun flag a => a.destructor flag) lv.isPlayerAttached }

/-- The number of live obstacles that hold a reference to the player. -/
def holders (lv : Level) : Nat :=
  (lv.obstacles.filter fun a => a.PlayerRef).length

end Level

/-! ## Theorems -/

/-- C1: for obstacles `A`, `B` at distinct positions whose bounding boxes intersect,
neither marked collided, with `n = (posB - posA) / |posB - posA|` and
`vAlongNormal = (velB - velA) · n ≤ 0`, the call `A.onColision(B)` leaves `A` with
accumulator `velA - j n` and `B` with `velB + j n`, where
`j = -(1 + 0.8) * vAlongNormal / 2`; the two velocity changes are exactly opposite. -/
theorem elastic_impulse_opposite (sqrtf : ℚ → ℚ) (A B : Asteroid) (isPlayerAttached : Bool)
    (now dt : ℚ) (n : Vector2f) (vAlongNormal j : ℚ)
    (hpos : A.pos ≠ B.pos)
    (hint : A.toGameObject.intersects B.toGameObject = true)
    (hA : A.colided = false) (hB : B.colided = false)
    (hn : n = (B.pos.sub A.pos).div (sqrtf ((B.pos.x - A.pos.x) * (B.pos.x - A.pos.x)
      + (B.pos.y - A.pos.y) * (B.pos.y - A.pos.y))))
    (hv : vAlongNormal = (B.acc.x - A.acc.x) * n.x + (B.acc.y - A.acc.y) * n.y)
    (hle : vAlongNormal ≤ 0)
    (hj : j = -(1 + 4 / 5) * vAlongNormal / 2) :
    let r := Entity.onColision sqrtf (.asteroid A) (.asteroid B) isPlayerAttached now dt
    r.1.toMovable.acc = A.acc.sub (Vector2f.smul j n)
      ∧ r.2.1.toMovable.acc = B.acc.add (Vector2f.smul j n)
      ∧ r.1.toMovable.acc.sub A.acc = (r.2.1.toMovable.acc.sub B.acc).neg := by
  subst hn hv hj
  have hgt : ¬ ((B.acc.x - A.acc.x) * ((B.pos.x - A.pos.x) / sqrtf ((B.pos.x - A.pos.x)
      * (B.pos.x - A.pos.x) + (B.pos.y - A.pos.y) * (B.pos.y - A.pos.y)))
      + (B.acc.y - A.acc.y) * ((B.pos.y - A.pos.y) / sqrtf ((B.pos.x - A.pos.x)
      * (B.pos.x - A.pos.x) + (B.pos.y - A.pos.y) * (B.pos.y - A.pos.y))) > 0) := by
    simpa [Vector2f.div, Vector2f.sub] using hle
  simp only [Entity.onColision, Asteroid.onColision, Asteroid.collideAsteroid, hA, hB, hint,
    normalize, VecLength, Vector2f.sub, Vector2f.div, Vector2f.smul, Vector2f.add, Vector2f.neg,
    Movable.addAcc, Entity.toMovable, Bool.not_false, Bool.and_self, if_true, hgt, if_false]
  refine ⟨trivial, trivial, ?_⟩
  congr 1 <;> ring

/-- The spec scenario for C1: `A` at (0,0) with velocity (10,0) and `B` at (40,0) with
velocity (-10,0) end with velocities (-8,0) and (8,0). -/
theorem elastic_impulse_opposite_scenario :
    let A := Asteroid.at ⟨0, 0⟩ ⟨10, 0⟩
    let B := Asteroid.at ⟨40, 0⟩ ⟨-10, 0⟩
    let r := Entity.onColision Rat.sqrt (.asteroid A) (.asteroid B) false 0 0
    A.pos ≠ B.pos ∧ A.toGameObject.intersects B.toGameObject = true
      ∧ r.1.toMovable.acc = ⟨-8, 0⟩ ∧ r.2.1.toMovable.acc = ⟨8, 0⟩ := by
  have hs : Rat.sqrt (40 * 40) = 40 := by rw [Rat.sqrt_eq]; norm_num
  have hne : (Asteroid.at ⟨0, 0⟩ ⟨10, 0⟩).pos ≠ (Asteroid.at ⟨40, 0⟩ ⟨-10, 0⟩).pos := by
    simp [Asteroid.at]
  have hint : (Asteroid.at ⟨0, 0⟩ ⟨10, 0⟩).toGameObject.intersects
      (Asteroid.at ⟨40, 0⟩ ⟨-10, 0⟩).toGameObject = true := by
    simp [Asteroid.at, GameObject.intersects, Sprite.getGlobalBounds, FloatRect.intersects]
    norm_num
  have h := elastic_impulse_opposite Rat.sqrt (Asteroid.at ⟨0, 0⟩ ⟨10, 0⟩)
    (Asteroid.at ⟨40, 0⟩ ⟨-10, 0⟩) false 0 0 ⟨1, 0⟩ (-20) 18 hne hint rfl rfl
    (by simp [Asteroid.at, Vector2f.sub, Vector2f.div]; rw [hs]; norm_num)
    (by simp [Asteroid.at]; norm_num) (by norm_num) (by norm_num)
  refine ⟨hne, hint, ?_, ?_⟩
  · rw [h.1]; simp [Asteroid.at, Vector2f.sub, Vector2f.smul]; norm_num
  · rw [h.2.1]; simp [Asteroid.at, Vector2f.add, Vector2f.smul]; norm_num

/-- Arithmetic core of the restitution step: adding `-(9/5) v n / 2` twice along `n`
to a relative velocity with normal component `v < 0` strictly raises that component. -/
theorem normal_component_gain (a b nx ny : ℚ) (hlt : a * nx + b * ny < 0) :
    a * nx + b * ny
      < a * nx + b * ny + -(9 / 5) * (a * nx + b * ny) * (nx * nx + ny * ny) := by
  have hnn : 0 < nx * nx + ny * ny := by
    by_contra hcon
    have hx : nx * nx = 0 := by nlinarith [mul_self_nonneg nx, mul_self_nonneg ny]
    have hy : ny * ny = 0 := by nlinarith [mul_self_nonneg nx, mul_self_nonneg ny]
    have hx0 : nx = 0 := mul_self_eq_zero.mp hx
    have hy0 : ny = 0 := mul_self_eq_zero.mp hy
    rw [hx0, hy0] at hlt
    simp at hlt
  have hpos : 0 < -(9 / 5) * (a * nx + b * ny) := by linarith
  have := mul_pos hpos hnn
  linarith

/-- C2: for obstacles at distinct positions whose bounding boxes intersect, neither
marked collided, approaching along the collision normal (`vAlongNormal < 0`), the
normal relative velocity recomputed after `A.onColision(B)` with the same normal is
strictly greater than before. -/
theorem approach_speed_increases (sqrtf : ℚ → ℚ) (A B : Asteroid) (isPlayerAttached : Bool)
    (now dt : ℚ) (n : Vector2f) (vAlongNormal : ℚ)
    (hpos : A.pos ≠ B.pos)
    (hint : A.toGameObject.intersects B.toGameObject = true)
    (hA : A.colided = false) (hB : B.colided = false)
    (hn : n = normalize sqrtf (B.pos.sub A.pos))
    (hv : vAlongNormal = (B.acc.x - A.acc.x) * n.x + (B.acc.y - A.acc.y) * n.y)
    (hlt : vAlongNormal < 0) :
    let r := Entity.onColision sqrtf (.asteroid A) (.asteroid B) isPlayerAttached now dt
    (r.2.1.toMovable.acc.x - r.1.toMovable.acc.x) * n.x
      + (r.2.1.toMovable.acc.y - r.1.toMovable.acc.y) * n.y > vAlongNormal := by
  subst hv
  have hgain := normal_component_gain (B.acc.x - A.acc.x) (B.acc.y - A.acc.y) n.x n.y hlt
  have hgt : ¬ ((B.acc.x - A.acc.x) * n.x + (B.acc.y - A.acc.y) * n.y > 0) := by
    intro h; linarith
  simp only [Entity.onColision, Asteroid.onColision, Asteroid.collideAsteroid, hA, hB, hint,
    ← hn, Bool.not_false, Bool.and_self, if_true]
  simp only [Vector2f.sub, Vector2f.smul, Vector2f.add, Movable.addAcc, Entity.toMovable, hgt,
    if_false]
  linarith

/-- The scenario of C1 seen through C2: the normal relative velocity rises from -20
to 16. -/
theorem approach_speed_increases_scenario :
    let A := Asteroid.at ⟨0, 0⟩ ⟨10, 0⟩
    let B := Asteroid.at ⟨40, 0⟩ ⟨-10, 0⟩
    let r := Entity.onColision Rat.sqrt (.asteroid A) (.asteroid B) false 0 0
    (r.2.1.toMovable.acc.x - r.1.toMovable.acc.x) * 1
      + (r.2.1.toMovable.acc.y - r.1.toMovable.acc.y) * 0 > -20 := by
  have hs : Rat.sqrt (40 * 40) = 40 := by rw [Rat.sqrt_eq]; norm_num
  have hne : (Asteroid.at ⟨0, 0⟩ ⟨10, 0⟩).pos ≠ (Asteroid.at ⟨40, 0⟩ ⟨-10, 0⟩).pos := by
    simp [Asteroid.at]
  have hint : (Asteroid.at ⟨0, 0⟩ ⟨10, 0⟩).toGameObject.intersects
      (Asteroid.at ⟨40, 0⟩ ⟨-10, 0⟩).toGameObject = true := by
    simp [Asteroid.at, GameObject.intersects, Sprite.getGlobalBounds, FloatRect.intersects]
    norm_num
  exact approach_speed_increases Rat.sqrt (Asteroid.at ⟨0, 0⟩ ⟨10, 0⟩)
    (Asteroid.at ⟨40, 0⟩ ⟨-10, 0⟩) false 0 0 ⟨1, 0⟩ (-20) hne hint rfl rfl
    (by simp [Asteroid.at, normalize, VecLength, Vector2f.sub, Vector2f.div]; rw [hs]; norm_num)
    (by simp [Asteroid.at]; norm_num) (by norm_num)

/-! ### The grid as a sorted map -/

theorem comparator_true_iff (a b : Vector2i) :
    Vector2iComparator a b = true ↔ a.x < b.x ∨ (a.x = b.x ∧ a.y < b.y) := by
  unfold Vector2iComparator
  by_cases h : a.x = b.x
  · simp [h]
  · simp [h]

theorem comparator_trans {a b c : Vector2i} (h1 : Vector2iComparator a b = true)
    (h2 : Vector2iComparator b c = true) : Vector2iComparator a c = true := by
  rw [comparator_true_iff] at *
  omega

theorem comparator_irrefl (a : Vector2i) : ¬ Vector2iComparator a a = true := by
  rw [comparator_true_iff]
  omega

theorem comparator_total {a b : Vector2i} (hne : a ≠ b)
    (h : ¬ Vector2iComparator a b = true) : Vector2iComparator b a = true := by
  rw [comparator_true_iff] at *
  have hxy : ¬ (a.x = b.x ∧ a.y = b.y) := by
    rintro ⟨h1, h2⟩
    apply hne
    cases a; cases b; simp_all
  omega

theorem Grid.find_none_of_lt (g : Grid) (c : Vector2i) (e0 : Vector2i × List Nat)
    (hs : Grid.Sorted (e0 :: g)) (hlt : Vector2iComparator c e0.1 = true) :
    List.find? (fun e => decide (e.1 = c)) (e0 :: g) = none := by
  rw [List.find?_eq_none]
  intro e he
  simp only [decide_eq_true_eq]
  intro hec
  rcases List.mem_cons.mp he with rfl | hmem
  · rw [hec] at hlt
    exact comparator_irrefl c hlt
  · have h1 : Vector2iComparator e0.1 e.1 = true := (List.pairwise_cons.mp hs).1 e hmem
    have h2 := comparator_trans hlt h1
    rw [hec] at h2
    exact comparator_irrefl c h2

theorem Grid.find_push (g : Grid) (hs : Grid.Sorted g) (c : Vector2i) (o : Nat) (c' : Vector2i) :
    List.find? (fun e => decide (e.1 = c')) (Grid.push c o g) =
      if c' = c then some (c, Grid.get g c ++ [o])
      else List.find? (fun e => decide (e.1 = c')) g := by
  induction g with
  | nil =>
    by_cases h : c' = c
    · subst h; simp [Grid.push, Grid.get]
    · have h' : ¬ c = c' := fun h2 => h h2.symm
      simp [Grid.push, h, h']
  | cons e0 rest ih =>
    obtain ⟨k, objs⟩ := e0
    have hrest : Grid.Sorted rest := (List.pairwise_cons.mp hs).2
    by_cases hk : k = c
    · subst hk
      by_cases h : c' = k
      · subst h; simp [Grid.push, Grid.get]
      · have h' : ¬ k = c' := fun h2 => h h2.symm
        simp [Grid.push, Grid.get, h, h']
    · by_cases hlt : Vector2iComparator c k = true
      · have hnone := Grid.find_none_of_lt rest c (k, objs) hs hlt
        by_cases h : c' = c
        · subst h
          simp [Grid.push, hk, hlt, Grid.get, hnone]
        · have h' : ¬ c = c' := fun h2 => h h2.symm
          simp [Grid.push, hk, hlt, h, h']
      · by_cases h : c' = c
        · subst h
          simp [Grid.push, hk, hlt, Grid.get, ih hrest]
        · by_cases hkc : k = c'
          · subst hkc
            simp [Grid.push, hk, hlt, h]
          · simp [Grid.push, hk, hlt, h, hkc, ih hrest]
theorem Grid.key_of_mem_push (g : Grid) (c : Vector2i) (o : Nat) (e : Vector2i × List Nat)
    (he : e ∈ Grid.push c o g) : e.1 = c ∨ ∃ e' ∈ g, e'.1 = e.1 := by
  induction g with
  | nil =>
    simp only [Grid.push, List.mem_singleton] at he
    left; rw [he]
  | cons e0 rest ih =>
    obtain ⟨k, objs⟩ := e0
    by_cases hk : k = c
    · simp only [Grid.push, hk, if_true, List.mem_cons] at he
      rcases he with rfl | hmem
      · left; rfl
      · right; exact ⟨e, List.mem_cons_of_mem _ hmem, rfl⟩
    · by_cases hlt : Vector2iComparator c k = true
      · simp only [Grid.push, hk, if_false, hlt, if_true, List.mem_cons] at he
        rcases he with rfl | rfl | hmem
        · left; rfl
        · right; exact ⟨(k, objs), List.mem_cons_self _ _, rfl⟩
        · right; exact ⟨e, List.mem_cons_of_mem _ hmem, rfl⟩
      · simp only [Grid.push, hk, if_false, hlt, Bool.false_eq_true, List.mem_cons] at he
        rcases he with rfl | hmem
        · right; exact ⟨(k, objs), List.mem_cons_self _ _, rfl⟩
        · rcases ih hmem with h | ⟨e', he', hkey⟩
          · left; exact h
          · right; exact ⟨e', List.mem_cons_of_mem _ he', hkey⟩

theorem Grid.push_sorted (g : Grid) (hs : Grid.Sorted g) (c : Vector2i) (o : Nat) :
    Grid.Sorted (Grid.push c o g) := by
  induction g with
  | nil => simp [Grid.push, Grid.Sorted]
  | cons e0 rest ih =>
    obtain ⟨k, objs⟩ := e0
    have hhead := (List.pairwise_cons.mp hs).1
    have hrest : Grid.Sorted rest := (List.pairwise_cons.mp hs).2
    by_cases hk : k = c
    · simp only [Grid.push, hk, if_true]
      subst hk
      exact List.pairwise_cons.mpr ⟨fun e he => hhead e he, hrest⟩
    · by_cases hlt : Vector2iComparator c k = true
      · simp only [Grid.push, hk, if_false, hlt, if_true]
        refine List.pairwise_cons.mpr ⟨?_, hs⟩
        intro e he
        rcases List.mem_cons.mp he with rfl | hmem
        · exact hlt
        · exact comparator_trans hlt (hhead e hmem)
      · simp only [Grid.push, hk, if_false, hlt, Bool.false_eq_true]
        refine List.pairwise_cons.mpr ⟨?_, ih hrest⟩
        intro e he
        rcases Grid.key_of_mem_push rest c o e he with h | ⟨e', he', hkey⟩
        · rw [h]
          exact comparator_total (fun h2 => hk h2.symm) hlt
        · rw [← hkey]
          exact hhead e' he'

theorem Grid.get_push (g : Grid) (hs : Grid.Sorted g) (c : Vector2i) (o : Nat) (c' : Vector2i) :
    Grid.get (Grid.push c o g) c' = if c' = c then Grid.get g c ++ [o] else Grid.get g c' := by
  by_cases h : c' = c
  · subst h; simp [Grid.get, Grid.find_push g hs]
  · simp [Grid.get, Grid.find_push g hs, h]

theorem Grid.count_push (g : Grid) (hs : Grid.Sorted g) (c : Vector2i) (o : Nat) (c' : Vector2i) :
    Grid.count (Grid.push c o g) c' = if c' = c then 1 else Grid.count g c' := by
  by_cases h : c' = c
  · subst h; simp [Grid.count, Grid.find_push g hs]
  · simp [Grid.count, Grid.find_push g hs, h]

theorem Grid.find_of_mem (g : Grid) (hs : Grid.Sorted g) (e : Vector2i × List Nat) (he : e ∈ g) :
    List.find? (fun e' => decide (e'.1 = e.1)) g = some e := by
  induction g with
  | nil => cases he
  | cons e0 rest ih =>
    rcases List.mem_cons.mp he with rfl | hmem
    · simp
    · have hlt : Vector2iComparator e0.1 e.1 = true := (List.pairwise_cons.mp hs).1 e hmem
      have hne : ¬ e0.1 = e.1 := by
        intro h
        rw [h] at hlt
        exact comparator_irrefl _ hlt
      rw [List.find?_cons_of_neg _ (by simpa using hne)]
      exact ih (List.pairwise_cons.mp hs).2 hmem

theorem placeObjects_spec (ps : List Vector2f) :
    ∀ (k : Nat) (g : Grid), Grid.Sorted g →
      Grid.Sorted (placeObjects ps k g)
      ∧ (∀ c, Grid.get (placeObjects ps k g) c = Grid.get g c ++ cellMembers ps k c)
      ∧ (∀ c, Grid.count (placeObjects ps k g) c ≠ 0 ↔
          (Grid.count g c ≠ 0 ∨ cellMembers ps k c ≠ [])) := by
  induction ps with
  | nil =>
    intro k g hs
    simp [placeObjects, cellMembers, hs]
  | cons p rest ih =>
    intro k g hs
    have hpush := Grid.push_sorted g hs (getGridCell p) k
    obtain ⟨h1, h2, h3⟩ := ih (k + 1) (Grid.push (getGridCell p) k g) hpush
    refine ⟨h1, ?_, ?_⟩
    · intro c
      simp only [placeObjects, cellMembers]
      rw [h2 c, Grid.get_push g hs]
      by_cases hc : c = getGridCell p
      · subst hc; simp
      · have hc' : ¬ getGridCell p = c := fun h => hc h.symm
        simp [hc, hc']
    · intro c
      simp only [placeObjects, cellMembers]
      rw [h3 c, Grid.count_push g hs]
      by_cases hc : c = getGridCell p
      · subst hc; simp
      · have hc' : ¬ getGridCell p = c := fun h => hc h.symm
        simp [hc, hc']

theorem mem_cellMembers (ps : List Vector2f) :
    ∀ (k : Nat) (c : Vector2i) (i : Nat),
      i ∈ cellMembers ps k c ↔ ∃ m p, i = k + m ∧ ps[m]? = some p ∧ getGridCell p = c := by
  induction ps with
  | nil => intro k c i; simp [cellMembers]
  | cons p rest ih =>
    intro k c i
    simp only [cellMembers, List.mem_append, ih]
    constructor
    · rintro (h | ⟨m, q, hi, hq, hc⟩)
      · by_cases hp : getGridCell p = c
        · simp only [hp, if_true, List.mem_singleton] at h
          exact ⟨0, p, by omega, by simp, hp⟩
        · simp [hp] at h
      · exact ⟨m + 1, q, by omega, by simpa using hq, hc⟩
    · rintro ⟨m, q, hi, hq, hc⟩
      cases m with
      | zero =>
        left
        simp only [List.getElem?_cons_zero, Option.some.injEq] at hq
        subst hq
        simp [hc, hi]
      | succ m =>
        right
        exact ⟨m, q, by omega, by simpa using hq, hc⟩

theorem cellMembers_nodup (ps : List Vector2f) :
    ∀ (k : Nat) (c : Vector2i), (cellMembers ps k c).Nodup := by
  induction ps with
  | nil => intro k c; simp [cellMembers]
  | cons p rest ih =>
    intro k c
    simp only [cellMembers]
    apply List.Nodup.append
    · split <;> simp
    · exact ih (k + 1) c
    · intro i h1 h2
      rw [mem_cellMembers] at h2
      obtain ⟨m, q, hi, _, _⟩ := h2
      split at h1
      · simp only [List.mem_singleton] at h1; omega
      · cases h1

/-! ### Cells of nearby positions -/

theorem toInt_mono {x y : ℚ} (h : x ≤ y) : toInt x ≤ toInt y := by
  unfold toInt
  by_cases hx : 0 ≤ x
  · have hy : 0 ≤ y := le_trans hx h
    rw [if_pos hx, if_pos hy]
    exact Int.floor_mono h
  · rw [if_neg hx]
    by_cases hy : 0 ≤ y
    · rw [if_pos hy]
      have h1 : ⌈x⌉ ≤ 0 := Int.ceil_le.mpr (by push_neg at hx; exact_mod_cast hx.le)
      have h2 : 0 ≤ ⌊y⌋ := Int.floor_nonneg.mpr hy
      omega
    · rw [if_neg hy]
      exact Int.ceil_mono h

theorem toInt_add_cell {x y : ℚ} (h : y ≤ x + 200) : toInt y ≤ toInt x + 200 := by
  unfold toInt
  by_cases hy : 0 ≤ y
  · rw [if_pos hy]
    have h1 : (⌊y⌋ : ℚ) ≤ y := Int.floor_le y
    by_cases hx : 0 ≤ x
    · rw [if_pos hx]
      have h2 : x < (⌊x⌋ : ℚ) + 1 := Int.lt_floor_add_one x
      have h3 : (⌊y⌋ : ℚ) < ((⌊x⌋ + 201 : Int) : ℚ) := by push_cast; linarith
      have h4 : ⌊y⌋ < ⌊x⌋ + 201 := by exact_mod_cast h3
      omega
    · rw [if_neg hx]
      have h2 : x ≤ (⌈x⌉ : ℚ) := Int.le_ceil x
      have h3 : (⌊y⌋ : ℚ) ≤ ((⌈x⌉ + 200 : Int) : ℚ) := by push_cast; linarith
      exact_mod_cast h3
  · rw [if_neg hy]
    have h1 : (⌈y⌉ : ℚ) < y + 1 := Int.ceil_lt_add_one y
    by_cases hx : 0 ≤ x
    · rw [if_pos hx]
      have h2 : x < (⌊x⌋ : ℚ) + 1 := Int.lt_floor_add_one x
      have h0 : 0 ≤ ⌊x⌋ := Int.floor_nonneg.mpr hx
      have h5 : ⌈y⌉ ≤ 0 := Int.ceil_le.mpr (by push_neg at hy; exact_mod_cast hy.le)
      omega
    · rw [if_neg hx]
      have h2 : x ≤ (⌈x⌉ : ℚ) := Int.le_ceil x
      have h3 : (⌈y⌉ : ℚ) < ((⌈x⌉ + 201 : Int) : ℚ) := by push_cast; linarith
      have h4 : ⌈y⌉ < ⌈x⌉ + 201 := by exact_mod_cast h3
      omega

theorem tdiv_grid (a : Int) :
    Int.tdiv a GRID_SIZE = if 0 ≤ a then a / 200 else -((-a) / 200) := by
  unfold GRID_SIZE
  by_cases h : 0 ≤ a
  · rw [if_pos h, Int.tdiv_eq_ediv h (by omega)]
  · rw [if_neg h]
    have hneg : a = -(-a) := by omega
    rw [hneg, Int.neg_tdiv, Int.tdiv_eq_ediv (by omega) (by omega)]
    simp

theorem tdiv_grid_near {a b : Int} (h1 : a ≤ b) (h2 : b ≤ a + 200) :
    Int.tdiv a GRID_SIZE ≤ Int.tdiv b GRID_SIZE
      ∧ Int.tdiv b GRID_SIZE ≤ Int.tdiv a GRID_SIZE + 1 := by
  rw [tdiv_grid a, tdiv_grid b]
  split_ifs <;> omega

theorem cell_axis_near {x y : ℚ} (h : |x - y| ≤ 200) :
    -1 ≤ Int.tdiv (toInt y) GRID_SIZE - Int.tdiv (toInt x) GRID_SIZE
      ∧ Int.tdiv (toInt y) GRID_SIZE - Int.tdiv (toInt x) GRID_SIZE ≤ 1 := by
  have habs := abs_le.mp h
  rcases le_total x y with hxy | hyx
  · have := tdiv_grid_near (toInt_mono hxy) (toInt_add_cell (by linarith [habs.1] : y ≤ x + 200))
    omega
  · have := tdiv_grid_near (toInt_mono hyx) (toInt_add_cell (by linarith [habs.2] : x ≤ y + 200))
    omega

theorem Grid.get_mem (g : Grid) (c : Vector2i) (o : Nat) (ho : o ∈ Grid.get g c) :
    ∃ e ∈ g, e.1 = c ∧ e.2 = Grid.get g c := by
  unfold Grid.get at ho ⊢
  cases hfind : List.find? (fun e => decide (e.1 = c)) g with
  | none => rw [hfind] at ho; cases ho
  | some e =>
    refine ⟨e, List.mem_of_find?_eq_some hfind, ?_, rfl⟩
    simpa using List.find?_some hfind

theorem placed_grid (ps : List Vector2f) :
    Grid.Sorted (placeObjects ps 0 [])
      ∧ (∀ c, Grid.get (placeObjects ps 0 []) c = cellMembers ps 0 c)
      ∧ (∀ c, Grid.count (placeObjects ps 0 []) c ≠ 0 ↔ cellMembers ps 0 c ≠ []) := by
  obtain ⟨h1, h2, h3⟩ := placeObjects_spec ps 0 [] List.Pairwise.nil
  refine ⟨h1, ?_, ?_⟩
  · intro c; rw [h2 c]; simp [Grid.get]
  · intro c; rw [h3 c]; simp [Grid.count]

theorem mem_placed (ps : List Vector2f) (i : Nat) (p : Vector2f) (hp : ps[i]? = some p) :
    i ∈ cellMembers ps 0 (getGridCell p) :=
  (mem_cellMembers ps 0 (getGridCell p) i).mpr ⟨i, p, by omega, hp, rfl⟩

theorem mem_neighbourCalls (grid : Grid) (cell target : Vector2i) (cellObjects : List Nat)
    (i j : Nat) (hij : i ≠ j) (hi : i ∈ cellObjects) (hj : j ∈ Grid.get grid target)
    (hcount : Grid.count grid target ≠ 0)
    (hx : -1 ≤ target.x - cell.x ∧ target.x - cell.x ≤ 1)
    (hy : -1 ≤ target.y - cell.y ∧ target.y - cell.y ≤ 1) :
    (i, j) ∈ neighbourCalls grid cell cellObjects := by
  unfold neighbourCalls
  have hdx : target.x - cell.x ∈ ([-1, 0, 1] : List Int) := by
    simp only [List.mem_cons, List.mem_singleton, List.not_mem_nil, or_false]; omega
  have hdy : target.y - cell.y ∈ ([-1, 0, 1] : List Int) := by
    simp only [List.mem_cons, List.mem_singleton, List.not_mem_nil, or_false]; omega
  have hcell : (⟨cell.x + (target.x - cell.x), cell.y + (target.y - cell.y)⟩ : Vector2i)
      = target := by
    cases target
    simp
  refine List.mem_flatMap.mpr ⟨_, hdx, List.mem_flatMap.mpr ⟨_, hdy, ?_⟩⟩
  simp only [hcell, hcount, ne_eq, not_false_eq_true, if_true]
  refine List.mem_flatMap.mpr ⟨i, hi, List.mem_map.mpr ⟨j, ?_, rfl⟩⟩
  simp [hj, hij]

theorem mem_dispatchCalls_of_adjacent (ps : List Vector2f) (i j : Nat) (p q : Vector2f)
    (hp : ps[i]? = some p) (hq : ps[j]? = some q) (hij : i ≠ j)
    (hx : -1 ≤ (getGridCell q).x - (getGridCell p).x ∧ (getGridCell q).x - (getGridCell p).x ≤ 1)
    (hy : -1 ≤ (getGridCell q).y - (getGridCell p).y ∧ (getGridCell q).y - (getGridCell p).y ≤ 1) :
    (i, j) ∈ dispatchCalls ps := by
  obtain ⟨_, hget, hcount⟩ := placed_grid ps
  have hi : i ∈ Grid.get (placeObjects ps 0 []) (getGridCell p) := by
    rw [hget]; exact mem_placed ps i p hp
  have hj : j ∈ Grid.get (placeObjects ps 0 []) (getGridCell q) := by
    rw [hget]; exact mem_placed ps j q hq
  have hc : Grid.count (placeObjects ps 0 []) (getGridCell q) ≠ 0 :=
    (hcount _).mpr (List.ne_nil_of_mem (mem_placed ps j q hq))
  obtain ⟨e, he, hkey, hobjs⟩ := Grid.get_mem _ _ _ hi
  unfold dispatchCalls
  refine List.mem_flatMap.mpr ⟨e, he, List.mem_append.mpr (Or.inr ?_)⟩
  rw [hkey]
  exact mem_neighbourCalls _ _ _ _ i j hij (by rw [hobjs]; exact hi) hj hc hx hy

/-- C3 (broad-phase completeness): for every list of collidable objects with sprite
positions in `int` range and every two distinct objects `a`, `b` in it whose bounding
boxes intersect and whose positions differ by at most one cell width (200) on each
axis, `checkCollisions` calls `a.onColision(b)` or `b.onColision(a)`. -/
theorem broad_phase_complete (objects : List Entity) (i j : Nat) (a b : Entity)
    (ha : objects[i]? = some a) (hb : objects[j]? = some b) (hij : i ≠ j)
    (hrange : ∀ o ∈ objects, inIntRange o.toGameObject.sprite.position.x
      ∧ inIntRange o.toGameObject.sprite.position.y)
    (hint : a.toGameObject.intersects b.toGameObject = true)
    (hx : |a.toGameObject.sprite.position.x - b.toGameObject.sprite.position.x| ≤ 200)
    (hy : |a.toGameObject.sprite.position.y - b.toGameObject.sprite.position.y| ≤ 200) :
    (i, j) ∈ dispatchCalls (objects.map fun o => o.toGameObject.sprite.position)
      ∨ (j, i) ∈ dispatchCalls (objects.map fun o => o.toGameObject.sprite.position) := by
  left
  refine mem_dispatchCalls_of_adjacent _ i j a.toGameObject.sprite.position
    b.toGameObject.sprite.position (by simp [ha]) (by simp [hb]) hij ?_ ?_
  · exact cell_axis_near hx
  · exact cell_axis_near hy

/-- Two overlapping obstacles on either side of the cell boundary `x = 200` are
dispatched. -/
theorem broad_phase_complete_boundary :
    let a := Entity.asteroid (Asteroid.at ⟨190, 10⟩ ⟨0, 0⟩)
    let b := Entity.asteroid (Asteroid.at ⟨210, 10⟩ ⟨0, 0⟩)
    getGridCell a.toGameObject.sprite.position ≠ getGridCell b.toGameObject.sprite.position
      ∧ ((0, 1) ∈ dispatchCalls ([a, b].map fun o => o.toGameObject.sprite.position)
        ∨ (1, 0) ∈ dispatchCalls ([a, b].map fun o => o.toGameObject.sprite.position)) := by
  refine ⟨by decide, ?_⟩
  refine broad_phase_complete
    [.asteroid (Asteroid.at ⟨190, 10⟩ ⟨0, 0⟩), .asteroid (Asteroid.at ⟨210, 10⟩ ⟨0, 0⟩)] 0 1
    (.asteroid (Asteroid.at ⟨190, 10⟩ ⟨0, 0⟩)) (.asteroid (Asteroid.at ⟨210, 10⟩ ⟨0, 0⟩))
    rfl rfl (by decide) ?_ ?_ ?_ ?_
  · intro o ho
    simp only [List.mem_cons, List.mem_singleton, List.not_mem_nil, or_false] at ho
    rcases ho with rfl | rfl <;>
      simp [Entity.toGameObject, Asteroid.at, inIntRange, toInt]
  · simp [Entity.toGameObject, Asteroid.at, GameObject.intersects, Sprite.getGlobalBounds,
      FloatRect.intersects]
    norm_num
  · simp [Entity.toGameObject, Asteroid.at]; norm_num
  · simp [Entity.toGameObject, Asteroid.at]

/-! ### Counting calls -/

theorem Grid.get_eq_nil_of_count (g : Grid) (c : Vector2i) (h : Grid.count g c = 0) :
    Grid.get g c = [] := by
  unfold Grid.count at h
  unfold Grid.get
  cases hfind : List.find? (fun e => decide (e.1 = c)) g with
  | none => rfl
  | some e => rw [hfind] at h; cases h

theorem mem_withinCellCalls (l : List Nat) (a b : Nat) (h : (a, b) ∈ withinCellCalls l) :
    a ∈ l ∧ b ∈ l := by
  induction l with
  | nil => cases h
  | cons x rest ih =>
    simp only [withinCellCalls, List.mem_append, List.mem_map, Prod.mk.injEq] at h
    rcases h with ⟨y, hy, rfl, rfl⟩ | h
    · exact ⟨List.mem_cons_self _ _, List.mem_cons_of_mem _ hy⟩
    · exact ⟨List.mem_cons_of_mem _ (ih h).1, List.mem_cons_of_mem _ (ih h).2⟩

theorem callCount_eq_zero (calls : List (Nat × Nat)) (i j : Nat) (h : (i, j) ∉ calls) :
    callCount calls i j = 0 := by
  unfold callCount
  rw [List.countP_eq_zero]
  intro c hc hdec
  simp only [decide_eq_true_eq] at hdec
  exact h (hdec ▸ hc)

theorem callCount_eq_one (calls : List (Nat × Nat)) (i j : Nat) (hnd : calls.Nodup)
    (h : (i, j) ∈ calls) : callCount calls i j = 1 := by
  induction calls with
  | nil => cases h
  | cons c rest ih =>
    have hnd' := List.nodup_cons.mp hnd
    unfold callCount at ih ⊢
    rw [List.countP_cons]
    rcases List.mem_cons.mp h with heq | hmem
    · have h0 := callCount_eq_zero rest i j (heq ▸ hnd'.1)
      unfold callCount at h0
      rw [h0, ← heq]
      simp
    · have hne : c ≠ (i, j) := fun hc => hnd'.1 (hc ▸ hmem)
      rw [ih hnd'.2 hmem]
      simp [hne]

theorem callCount_append (l1 l2 : List (Nat × Nat)) (i j : Nat) :
    callCount (l1 ++ l2) i j = callCount l1 i j + callCount l2 i j := by
  unfold callCount
  exact List.countP_append _ _ _

theorem callCount_flatMap {α : Type} (l : List α) (f : α → List (Nat × Nat)) (i j : Nat) :
    callCount (l.flatMap f) i j = (l.map fun a => callCount (f a) i j).sum := by
  unfold callCount
  rw [List.countP_flatMap]
  rfl

theorem pairs_nodup (objs bucket : List Nat) (hobjs : objs.Nodup) (hb : bucket.Nodup) :
    (objs.flatMap fun obj1 =>
      (bucket.filter fun obj2 => decide (obj1 ≠ obj2)).map fun obj2 => (obj1, obj2)).Nodup := by
  rw [List.nodup_flatMap]
  constructor
  · intro o _
    refine (hb.filter _).map ?_
    intro x y hxy
    simp only [Prod.mk.injEq, true_and] at hxy
    exact hxy
  · refine hobjs.imp ?_
    intro a b hab
    intro x hx1 hx2
    simp only [List.mem_map, List.mem_filter] at hx1 hx2
    obtain ⟨_, _, rfl⟩ := hx1
    obtain ⟨_, _, h⟩ := hx2
    simp only [Prod.mk.injEq] at h
    exact hab h.1.symm

theorem callCount_pairs (objs bucket : List Nat) (hobjs : objs.Nodup) (hb : bucket.Nodup)
    (i j : Nat) (hij : i ≠ j) :
    callCount (objs.flatMap fun obj1 =>
      (bucket.filter fun obj2 => decide (obj1 ≠ obj2)).map fun obj2 => (obj1, obj2)) i j
      = if i ∈ objs ∧ j ∈ bucket then 1 else 0 := by
  by_cases h : i ∈ objs ∧ j ∈ bucket
  · rw [if_pos h]
    apply callCount_eq_one _ _ _ (pairs_nodup objs bucket hobjs hb)
    refine List.mem_flatMap.mpr ⟨i, h.1, List.mem_map.mpr ⟨j, ?_, rfl⟩⟩
    simp [h.2, hij]
  · rw [if_neg h]
    apply callCount_eq_zero
    intro hmem
    obtain ⟨o, ho, hmap⟩ := List.mem_flatMap.mp hmem
    simp only [List.mem_map, List.mem_filter, Prod.mk.injEq] at hmap
    obtain ⟨x, ⟨hx, _⟩, rfl, rfl⟩ := hmap
    exact h ⟨ho, hx⟩

theorem callCount_neighbour_term (grid : Grid) (hb : ∀ c, (Grid.get grid c).Nodup)
    (objs : List Nat) (hobjs : objs.Nodup) (nb : Vector2i) (i j : Nat) (hij : i ≠ j) :
    callCount (if Grid.count grid nb ≠ 0 then
        objs.flatMap fun obj1 =>
          ((Grid.get grid nb).filter fun obj2 => decide (obj1 ≠ obj2)).map fun obj2 => (obj1, obj2)
      else []) i j
      = if i ∈ objs ∧ j ∈ Grid.get grid nb then 1 else 0 := by
  by_cases hc : Grid.count grid nb = 0
  · have hnil := Grid.get_eq_nil_of_count grid nb hc
    simp [hc, hnil, callCount]
  · simp only [ne_eq, hc, not_false_eq_true, if_true]
    exact callCount_pairs objs _ hobjs (hb nb) i j hij

theorem sum_single {α : Type} (l : List α) (g : α → Nat) (a : α) (hnd : l.Nodup) (ha : a ∈ l)
    (h0 : ∀ b ∈ l, b ≠ a → g b = 0) : (l.map g).sum = g a := by
  induction l with
  | nil => cases ha
  | cons x rest ih =>
    have hnd' := List.nodup_cons.mp hnd
    simp only [List.map_cons, List.sum_cons]
    rcases List.mem_cons.mp ha with heq | hmem
    · subst heq
      have hrest : (rest.map g).sum = 0 := by
        apply List.sum_eq_zero
        intro n hn
        obtain ⟨b, hb, rfl⟩ := List.mem_map.mp hn
        exact h0 b (List.mem_cons_of_mem _ hb) (fun h => hnd'.1 (h ▸ hb))
      omega
    · have hx : g x = 0 := h0 x (List.mem_cons_self _ _) (fun h => hnd'.1 (h ▸ hmem))
      rw [hx, ih hnd'.2 hmem (fun b hb hne => h0 b (List.mem_cons_of_mem _ hb) hne)]
      omega

theorem callCount_neighbourCalls (grid : Grid) (hb : ∀ c, (Grid.get grid c).Nodup)
    (cell : Vector2i) (objs : List Nat) (hobjs : objs.Nodup) (i j : Nat) (hij : i ≠ j) :
    callCount (neighbourCalls grid cell objs) i j =
      (([-1, 0, 1] : List Int).map fun dx =>
        (([-1, 0, 1] : List Int).map fun dy =>
          if i ∈ objs ∧ j ∈ Grid.get grid ⟨cell.x + dx, cell.y + dy⟩ then 1 else 0).sum).sum := by
  unfold neighbourCalls
  rw [callCount_flatMap]
  congr 1
  apply List.map_congr_left
  intro dx _
  rw [callCount_flatMap]
  congr 1
  apply List.map_congr_left
  intro dy _
  exact callCount_neighbour_term grid hb objs hobjs _ i j hij

theorem mem_get_placed (ps : List Vector2f) (j : Nat) (q : Vector2f) (hq : ps[j]? = some q)
    (c : Vector2i) : j ∈ Grid.get (placeObjects ps 0 []) c ↔ c = getGridCell q := by
  rw [(placed_grid ps).2.1 c, mem_cellMembers]
  constructor
  · rintro ⟨m, p', hm, hp', hc⟩
    have hmj : m = j := by omega
    subst hmj
    rw [hq] at hp'
    cases hp'
    exact hc.symm
  · intro hc
    exact ⟨j, q, by omega, hq, hc.symm⟩

theorem adjacent_sum (cx cy qx qy : Int) :
    (([-1, 0, 1] : List Int).map fun dx =>
        (([-1, 0, 1] : List Int).map fun dy =>
          if cx + dx = qx ∧ cy + dy = qy then 1 else 0).sum).sum
      = if (-1 ≤ qx - cx ∧ qx - cx ≤ 1) ∧ (-1 ≤ qy - cy ∧ qy - cy ≤ 1) then 1 else 0 := by
  have ex : ∀ d : Int, (cx + d = qx) ↔ (qx - cx = d) := fun d => by omega
  have ey : ∀ d : Int, (cy + d = qy) ↔ (qy - cy = d) := fun d => by omega
  simp only [List.map_cons, List.map_nil, List.sum_cons, List.sum_nil, ex, ey]
  generalize qx - cx = a
  generalize qy - cy = b
  have ha : a = -1 ∨ a = 0 ∨ a = 1 ∨ ¬ (-1 ≤ a ∧ a ≤ 1) := by omega
  have hb : b = -1 ∨ b = 0 ∨ b = 1 ∨ ¬ (-1 ≤ b ∧ b ≤ 1) := by omega
  rcases ha with rfl | rfl | rfl | ha
  · rcases hb with rfl | rfl | rfl | hb
    · simp
    · simp
    · simp
    · have h1 : b ≠ -1 ∧ b ≠ 0 ∧ b ≠ 1 := by omega
      simp [hb, h1]
  · rcases hb with rfl | rfl | rfl | hb
    · simp
    · simp
    · simp
    · have h1 : b ≠ -1 ∧ b ≠ 0 ∧ b ≠ 1 := by omega
      simp [hb, h1]
  · rcases hb with rfl | rfl | rfl | hb
    · simp
    · simp
    · simp
    · have h1 : b ≠ -1 ∧ b ≠ 0 ∧ b ≠ 1 := by omega
      simp [hb, h1]
  · have h1 : a ≠ -1 ∧ a ≠ 0 ∧ a ≠ 1 := by omega
    simp [ha, h1]

theorem callCount_distinct_cells (ps : List Vector2f) (i j : Nat) (p q : Vector2f)
    (hp : ps[i]? = some p) (hq : ps[j]? = some q) (hcell : getGridCell p ≠ getGridCell q) :
    callCount (dispatchCalls ps) i j =
      if (-1 ≤ (getGridCell q).x - (getGridCell p).x ∧ (getGridCell q).x - (getGridCell p).x ≤ 1)
          ∧ (-1 ≤ (getGridCell q).y - (getGridCell p).y
            ∧ (getGridCell q).y - (getGridCell p).y ≤ 1)
      then 1 else 0 := by
  have hij : i ≠ j := by
    rintro rfl
    rw [hp] at hq
    cases hq
    exact hcell rfl
  obtain ⟨hs, hget, _⟩ := placed_grid ps
  have hb : ∀ c, (Grid.get (placeObjects ps 0 []) c).Nodup := by
    intro c; rw [hget c]; exact cellMembers_nodup ps 0 c
  have hi : i ∈ Grid.get (placeObjects ps 0 []) (getGridCell p) :=
    (mem_get_placed ps i p hp _).mpr rfl
  obtain ⟨e, he, hkey, hobjs⟩ := Grid.get_mem _ _ _ hi
  have hnd : (placeObjects ps 0 []).Nodup := by
    refine List.Pairwise.imp ?_ hs
    intro a b hab heq
    rw [heq] at hab
    exact comparator_irrefl _ hab
  have hbucket : ∀ b ∈ placeObjects ps 0 [], b.2 = Grid.get (placeObjects ps 0 []) b.1 := by
    intro b hbm
    simp [Grid.get, Grid.find_of_mem _ hs b hbm]
  unfold dispatchCalls
  rw [callCount_flatMap,
    sum_single _ (fun a => callCount (withinCellCalls a.2 ++ neighbourCalls _ a.1 a.2) i j) e hnd he]
  · rw [callCount_append, callCount_neighbourCalls _ hb _ _ (by rw [hobjs]; exact hb _) i j hij]
    have hwithin : callCount (withinCellCalls e.2) i j = 0 := by
      apply callCount_eq_zero
      intro hmem
      have hj := (mem_withinCellCalls _ _ _ hmem).2
      rw [hobjs, mem_get_placed ps j q hq] at hj
      exact hcell hj
    have hi' : i ∈ e.2 := by rw [hobjs]; exact hi
    simp only [hwithin, zero_add, hi', true_and, mem_get_placed ps j q hq, hkey]
    generalize getGridCell p = cp
    generalize getGridCell q = cq
    obtain ⟨qx, qy⟩ := cq
    simp only [Vector2i.mk.injEq]
    exact adjacent_sum cp.x cp.y qx qy
  · intro b hbm hne
    have hbi : i ∉ b.2 := by
      intro hmem
      rw [hbucket b hbm, mem_get_placed ps i p hp] at hmem
      apply hne
      have h1 := Grid.find_of_mem _ hs b hbm
      have h2 := Grid.find_of_mem _ hs e he
      rw [hmem, ← hkey, h2] at h1
      exact (Option.some.inj h1).symm
    show callCount (withinCellCalls b.2 ++ neighbourCalls _ b.1 b.2) i j = 0
    rw [callCount_append, callCount_neighbourCalls _ hb _ _ (by rw [hbucket b hbm]; exact hb _)
      i j hij]
    have hwithin : callCount (withinCellCalls b.2) i j = 0 := by
      apply callCount_eq_zero
      intro hmem
      exact hbi (mem_withinCellCalls _ _ _ hmem).1
    simp [hwithin, hbi]

/-- C4 fails as stated: two obstacles on either side of the cell boundary `x = 200`
are dispatched twice in one pass, once in each argument order. -/
theorem dispatch_pair_twice :
    let objects : List Entity :=
      [.asteroid (Asteroid.at ⟨190, 10⟩ ⟨0, 0⟩), .asteroid (Asteroid.at ⟨210, 10⟩ ⟨0, 0⟩)]
    let calls := dispatchCalls (objects.map fun o => o.toGameObject.sprite.position)
    calls = [(0, 1), (1, 0)] ∧ callCount calls 0 1 + callCount calls 1 0 = 2 := by
  decide

/-- C4, amended: for two objects whose sprite positions fall in different grid cells,
one pass of `checkCollisions` calls `a.onColision(b)` exactly once and
`b.onColision(a)` exactly once when the cells are neighbours (cell coordinates differ
by at most one on each axis), and never otherwise. -/
theorem dispatch_once_per_order (objects : List Entity) (i j : Nat) (a b : Entity)
    (ha : objects[i]? = some a) (hb : objects[j]? = some b)
    (hcell : getGridCell a.toGameObject.sprite.position
      ≠ getGridCell b.toGameObject.sprite.position) :
    let calls := dispatchCalls (objects.map fun o => o.toGameObject.sprite.position)
    let ca := getGridCell a.toGameObject.sprite.position
    let cb := getGridCell b.toGameObject.sprite.position
    let k := if (-1 ≤ cb.x - ca.x ∧ cb.x - ca.x ≤ 1) ∧ (-1 ≤ cb.y - ca.y ∧ cb.y - ca.y ≤ 1)
      then 1 else 0
    callCount calls i j = k ∧ callCount calls j i = k := by
  dsimp only
  have h1 := callCount_distinct_cells (objects.map fun o => o.toGameObject.sprite.position)
    i j a.toGameObject.sprite.position b.toGameObject.sprite.position
    (by simp [ha]) (by simp [hb]) hcell
  have h2 := callCount_distinct_cells (objects.map fun o => o.toGameObject.sprite.position)
    j i b.toGameObject.sprite.position a.toGameObject.sprite.position
    (by simp [hb]) (by simp [ha]) (fun h => hcell h.symm)
  refine ⟨h1, ?_⟩
  rw [h2]
  apply if_congr _ rfl rfl
  clear h1 h2
  constructor <;> intro h <;> omega

/-- Two obstacles on either side of the cell boundary `x = 200`: each order is
dispatched exactly once. -/
theorem dispatch_once_per_order_boundary :
    let objects : List Entity :=
      [.asteroid (Asteroid.at ⟨190, 10⟩ ⟨0, 0⟩), .asteroid (Asteroid.at ⟨210, 10⟩ ⟨0, 0⟩)]
    let calls := dispatchCalls (objects.map fun o => o.toGameObject.sprite.position)
    callCount calls 0 1 = 1 ∧ callCount calls 1 0 = 1 :=
  dispatch_once_per_order
    [.asteroid (Asteroid.at ⟨190, 10⟩ ⟨0, 0⟩), .asteroid (Asteroid.at ⟨210, 10⟩ ⟨0, 0⟩)] 0 1
    (.asteroid (Asteroid.at ⟨190, 10⟩ ⟨0, 0⟩)) (.asteroid (Asteroid.at ⟨210, 10⟩ ⟨0, 0⟩))
    rfl rfl (by decide)

/-! ### Symmetry of narrow-phase resolution -/

theorem FloatRect.intersects_comm (r1 r2 : FloatRect) :
    r1.intersects r2 = r2.intersects r1 := by
  unfold FloatRect.intersects
  simp only [max_comm, min_comm]

theorem GameObject.intersects_symm (a b : GameObject) : a.intersects b = b.intersects a :=
  FloatRect.intersects_comm _ _

theorem Asteroid.collideAsteroid_comm (sqrtf : ℚ → ℚ) (A B : Asteroid) :
    Asteroid.collideAsteroid sqrtf B A
      = ((Asteroid.collideAsteroid sqrtf A B).2, (Asteroid.collideAsteroid sqrtf A B).1) := by
  have hlen : sqrtf ((A.pos.x - B.pos.x) * (A.pos.x - B.pos.x)
      + (A.pos.y - B.pos.y) * (A.pos.y - B.pos.y))
      = sqrtf ((B.pos.x - A.pos.x) * (B.pos.x - A.pos.x)
      + (B.pos.y - A.pos.y) * (B.pos.y - A.pos.y)) := by
    congr 1; ring
  unfold Asteroid.collideAsteroid
  rw [GameObject.intersects_symm B.toGameObject A.toGameObject]
  by_cases hA : A.colided = true
  · simp [hA]
  · by_cases hB : B.colided = true
    · simp [hB]
    · by_cases hint : A.toGameObject.intersects B.toGameObject = true
      · simp only [Bool.not_eq_true] at hA hB
        simp only [hA, hB, hint, Bool.not_false, Bool.and_self, if_true, normalize, VecLength,
          Vector2f.sub, Vector2f.div, hlen]
        have hv : (A.acc.x - B.acc.x) * ((A.pos.x - B.pos.x) / sqrtf ((B.pos.x - A.pos.x)
            * (B.pos.x - A.pos.x) + (B.pos.y - A.pos.y) * (B.pos.y - A.pos.y)))
            + (A.acc.y - B.acc.y) * ((A.pos.y - B.pos.y) / sqrtf ((B.pos.x - A.pos.x)
            * (B.pos.x - A.pos.x) + (B.pos.y - A.pos.y) * (B.pos.y - A.pos.y)))
            = (B.acc.x - A.acc.x) * ((B.pos.x - A.pos.x) / sqrtf ((B.pos.x - A.pos.x)
            * (B.pos.x - A.pos.x) + (B.pos.y - A.pos.y) * (B.pos.y - A.pos.y)))
            + (B.acc.y - A.acc.y) * ((B.pos.y - A.pos.y) / sqrtf ((B.pos.x - A.pos.x)
            * (B.pos.x - A.pos.x) + (B.pos.y - A.pos.y) * (B.pos.y - A.pos.y))) := by
          ring
        rw [hv]
        split
        · rfl
        · simp only [Vector2f.smul, Movable.addAcc, Vector2f.add, Prod.mk.injEq]
          constructor
          · congr 3 <;> ring
          · congr 3 <;> ring
      · simp [hint]

theorem Entity.onColision_player (sqrtf : ℚ → ℚ) (p : Player) (obj : Entity)
    (isPlayerAttached : Bool) (now dt : ℚ) :
    Entity.onColision sqrtf (.player p) obj isPlayerAttached now dt
      = (.player p, obj, isPlayerAttached) := rfl

/-- C5 fails as stated: an obstacle overlapping the player attaches and kills when it
is the receiver, while the player as receiver does nothing. -/
theorem resolution_not_symmetric :
    let a := Entity.asteroid (Asteroid.at ⟨0, 0⟩ ⟨0, 0⟩)
    let b := Entity.player (Player.new ⟨0, 0⟩ 0)
    resolveAB Rat.sqrt a b false 0 0 ≠ resolveBA Rat.sqrt a b false 0 0
      ∧ (resolveAB Rat.sqrt a b false 0 0).2.2 = true
      ∧ (resolveBA Rat.sqrt a b false 0 0).2.2 = false := by
  have hint : (Asteroid.at ⟨0, 0⟩ ⟨0, 0⟩).toGameObject.intersects
      (Player.new ⟨0, 0⟩ 0).toGameObject = true := by
    simp [Asteroid.at, Player.new, GameObject.setDefaultRect, GameObject.intersects,
      Sprite.getGlobalBounds, FloatRect.intersects]
    norm_num
  have hAB : (resolveAB Rat.sqrt (.asteroid (Asteroid.at ⟨0, 0⟩ ⟨0, 0⟩))
      (.player (Player.new ⟨0, 0⟩ 0)) false 0 0).2.2 = true := by
    simp [resolveAB, Entity.onColision, Asteroid.onColision, hint]
  have hBA : (resolveBA Rat.sqrt (.asteroid (Asteroid.at ⟨0, 0⟩ ⟨0, 0⟩))
      (.player (Player.new ⟨0, 0⟩ 0)) false 0 0).2.2 = false := rfl
  refine ⟨?_, hAB, hBA⟩
  intro h
  rw [h, hBA] at hAB
  cases hAB

/-- C5, amended: narrow-phase resolution is symmetric for every pair of entities in
which neither or both are the `Player` (obstacle-obstacle, obstacle-objective,
objective-objective): the state after `a.onColision(b)` equals the state after
`b.onColision(a)`.  The `Player` reacts to every entity with the default no-op. -/
theorem resolution_symmetric_without_player (sqrtf : ℚ → ℚ) (a b : Entity)
    (isPlayerAttached : Bool) (now dt : ℚ) (h : a.isPlayer = b.isPlayer) :
    resolveAB sqrtf a b isPlayerAttached now dt = resolveBA sqrtf a b isPlayerAttached now dt
      ∧ ∀ (p : Player) (obj : Entity),
          Entity.onColision sqrtf (.player p) obj isPlayerAttached now dt
            = (.player p, obj, isPlayerAttached) := by
  refine ⟨?_, fun p obj => Entity.onColision_player sqrtf p obj isPlayerAttached now dt⟩
  unfold resolveAB resolveBA
  cases a with
  | player p =>
    cases b with
    | player q => rfl
    | spaceship s => cases h
    | asteroid B => cases h
  | spaceship s =>
    cases b with
    | player q => cases h
    | spaceship t => rfl
    | asteroid B => rfl
  | asteroid A =>
    cases b with
    | player q => cases h
    | spaceship t => rfl
    | asteroid B =>
      simp only [Entity.onColision, Asteroid.onColision, Asteroid.collideAsteroid_comm sqrtf A B]

/-- The two obstacles of the C1 scenario resolve to the same state in either order. -/
theorem resolution_symmetric_scenario :
    let a := Entity.asteroid (Asteroid.at ⟨0, 0⟩ ⟨10, 0⟩)
    let b := Entity.asteroid (Asteroid.at ⟨40, 0⟩ ⟨-10, 0⟩)
    resolveAB Rat.sqrt a b false 0 0 = resolveBA Rat.sqrt a b false 0 0 :=
  (resolution_symmetric_without_player Rat.sqrt (.asteroid (Asteroid.at ⟨0, 0⟩ ⟨10, 0⟩))
    (.asteroid (Asteroid.at ⟨40, 0⟩ ⟨-10, 0⟩)) false 0 0 rfl).1

/-! ### Player resources -/

theorem Player.tick_fuel (sqrtf : ℚ → ℚ) (p : Player) (dt : ℚ) :
    (p.tick sqrtf dt).fuel = p.fuel := by
  unfold Player.tick
  dsimp only
  split_ifs <;> rfl

theorem Player.tick_oxygen (sqrtf : ℚ → ℚ) (p : Player) (dt : ℚ) :
    (p.tick sqrtf dt).oxygen
      = max 0 (if p.fuel = 0 then p.oxygen - dt * 1 - dt * 4 else p.oxygen - dt * 1) := by
  unfold Player.tick
  dsimp only
  by_cases hf : p.fuel = 0
  · simp only [hf, if_true]
    split_ifs with h
    · exact (max_eq_left h).symm
    · exact (max_eq_right (le_of_lt (not_le.mp h))).symm
  · simp only [hf, if_false]
    split_ifs with h
    · exact (max_eq_left h).symm
    · exact (max_eq_right (le_of_lt (not_le.mp h))).symm

theorem Player.tick_inBounds (sqrtf : ℚ → ℚ) (p : Player) (dt : ℚ) (hdt : 0 ≤ dt)
    (h : p.resourcesInBounds) : (p.tick sqrtf dt).resourcesInBounds := by
  unfold Player.resourcesInBounds at h ⊢
  rw [Player.tick_fuel, Player.tick_oxygen]
  refine ⟨h.1, le_max_left _ _, max_le (by norm_num) ?_⟩
  split_ifs <;> linarith [h.2.2]

theorem Player.tickInput_oxygen (sqrtf : ℚ → ℚ) (p : Player) (dt : ℚ) (input : inputs) :
    (p.tickInput sqrtf dt input).oxygen = (p.tick sqrtf dt).oxygen := by
  unfold Player.tickInput
  dsimp only
  split_ifs <;> rfl

theorem Player.tickInput_fuel (sqrtf : ℚ → ℚ) (p : Player) (dt : ℚ) (input : inputs) :
    (p.tickInput sqrtf dt input).fuel = p.fuel
      ∨ (p.tickInput sqrtf dt input).fuel = 0
      ∨ ((p.tickInput sqrtf dt input).fuel = p.fuel - 5 * dt ∧ 0 < p.fuel - 5 * dt) := by
  have hf := Player.tick_fuel sqrtf p dt
  unfold Player.tickInput
  generalize p.tick sqrtf dt = q at hf ⊢
  rw [← hf]
  dsimp only
  generalize Player.inputAcc { q with points := q.fuel * (1 / 5) + q.oxygen * (1 / 2) } dt input
    = acc
  by_cases ho : q.oxygen = 0
  · rw [if_pos ho]
    left; rfl
  · rw [if_neg ho]
    by_cases hc : VecLength sqrtf acc ≠ 0 ∧ q.fuel ≠ 0
    · rw [if_pos hc]
      dsimp only
      by_cases he : q.fuel - 5 * dt ≤ 0
      · right; left
        simp only [he, decide_True, if_true]
      · right; right
        simp only [he, decide_False, Bool.false_eq_true, if_false]
        exact ⟨trivial, not_le.mp he⟩
    · rw [if_neg hc]
      dsimp only
      by_cases he : q.fuel ≤ 0
      · right; left
        simp only [he, decide_True, if_true]
      · left
        simp only [he, decide_False, Bool.false_eq_true, if_false]

theorem Player.tickInput_inBounds (sqrtf : ℚ → ℚ) (p : Player) (dt : ℚ) (input : inputs)
    (hdt : 0 ≤ dt) (h : p.resourcesInBounds) : (p.tickInput sqrtf dt input).resourcesInBounds := by
  have ht := Player.tick_inBounds sqrtf p dt hdt h
  unfold Player.resourcesInBounds at h ht ⊢
  rw [Player.tickInput_oxygen]
  refine ⟨?_, ht.2⟩
  rcases Player.tickInput_fuel sqrtf p dt input with hf | hf | ⟨hf, hpos⟩
  · rw [hf]; exact h.1
  · rw [hf]; norm_num
  · rw [hf]; constructor <;> linarith [h.1.2]

theorem Player.addResources_inBounds (p : Player) (fuel oxygen : ℚ) (hf : 0 ≤ fuel)
    (ho : 0 ≤ oxygen) (h : p.resourcesInBounds) : (p.addResources fuel oxygen).resourcesInBounds := by
  unfold Player.resourcesInBounds at h ⊢
  unfold Player.addResources
  by_cases hd : p.dead = true
  · simp only [hd, if_true]; exact h
  · simp only [hd, Bool.false_eq_true, if_false]
    by_cases h1 : p.fuel + fuel > 100 <;> by_cases h2 : p.oxygen + oxygen > 100 <;>
      simp only [h1, h2, if_true, if_false] <;>
      refine ⟨⟨?_, ?_⟩, ?_, ?_⟩ <;> linarith [h.1.1, h.1.2, h.2.1, h.2.2]

theorem Player.Kill_inBounds (p : Player) (now : ℚ) (h : p.resourcesInBounds) :
    (p.Kill now).resourcesInBounds := by
  unfold Player.resourcesInBounds at h ⊢
  unfold Player.Kill
  split_ifs
  · exact h
  · dsimp only [Movable.addAcc]
    norm_num

theorem PlayerOp.run_inBounds (sqrtf : ℚ → ℚ) (p : Player) (op : PlayerOp)
    (hop : op.admissible) (h : p.resourcesInBounds) : (op.run sqrtf p).resourcesInBounds := by
  cases op with
  | tick dt => exact Player.tick_inBounds sqrtf p dt hop h
  | tickInput dt input => exact Player.tickInput_inBounds sqrtf p dt input hop h
  | addResources fuel oxygen => exact Player.addResources_inBounds p fuel oxygen hop.1 hop.2 h
  | Kill now => exact Player.Kill_inBounds p now h

theorem PlayerOp.runAll_inBounds (sqrtf : ℚ → ℚ) (ops : List PlayerOp) :
    ∀ p : Player, (∀ op ∈ ops, op.admissible) → p.resourcesInBounds →
      (ops.foldl (PlayerOp.run sqrtf) p).resourcesInBounds := by
  induction ops with
  | nil => intro p _ h; exact h
  | cons op rest ih =>
    intro p hops h
    exact ih (op.run sqrtf p) (fun o ho => hops o (List.mem_cons_of_mem _ ho))
      (PlayerOp.run_inBounds sqrtf p op (hops op (List.mem_cons_self _ _)) h)

/-- C8 (resource bounds): starting from a freshly constructed `Player`, after every
sequence of `tick(dt)`, `tick(dt, input)` with `dt ≥ 0`, `addResources` with
non-negative amounts and `Kill`, both fuel and oxygen lie in `[0, 100]`. -/
theorem resources_stay_in_bounds (sqrtf : ℚ → ℚ) (pos : Vector2f) (creation : ℚ)
    (ops : List PlayerOp) (hops : ∀ op ∈ ops, op.admissible) :
    let p := ops.foldl (PlayerOp.run sqrtf) (Player.new pos creation)
    (0 ≤ p.fuel ∧ p.fuel ≤ 100) ∧ (0 ≤ p.oxygen ∧ p.oxygen ≤ 100) := by
  have h0 : (Player.new pos creation).resourcesInBounds := by
    unfold Player.resourcesInBounds Player.new
    norm_num
  exact PlayerOp.runAll_inBounds sqrtf ops (Player.new pos creation) hops h0

/-- A run of C8: burning fuel, refuelling, a kill and a further tick stay in bounds. -/
theorem resources_stay_in_bounds_run :
    let ops : List PlayerOp :=
      [.tickInput 1 { W := true }, .addResources 50 50, .Kill 20, .tick 1]
    let p := ops.foldl (PlayerOp.run Rat.sqrt) (Player.new ⟨0, 0⟩ 0)
    (0 ≤ p.fuel ∧ p.fuel ≤ 100) ∧ (0 ≤ p.oxygen ∧ p.oxygen ≤ 100) := by
  refine resources_stay_in_bounds Rat.sqrt ⟨0, 0⟩ 0
    [.tickInput 1 { W := true }, .addResources 50 50, .Kill 20, .tick 1] ?_
  intro op hop
  simp only [List.mem_cons, List.mem_singleton, List.not_mem_nil, or_false] at hop
  rcases hop with rfl | rfl | rfl | rfl <;> simp [PlayerOp.admissible]

/-- C9 fails as stated: with an empty tank, oxygen 100 and `dt = 1` the tick leaves
oxygen 95, not `max 0 (100 - 4 * 1) = 96`. -/
theorem empty_tank_decay_not_fourfold :
    let p : Player := { Player.new ⟨0, 0⟩ 0 with fuel := 0 }
    (p.tick Rat.sqrt 1).oxygen = 95 ∧ (p.tick Rat.sqrt 1).oxygen ≠ max 0 (p.oxygen - 4 * 1) := by
  have h := Player.tick_oxygen Rat.sqrt { Player.new ⟨0, 0⟩ 0 with fuel := 0 } 1
  simp only [if_true] at h
  have h95 : ({ Player.new ⟨0, 0⟩ 0 with fuel := 0 } : Player).oxygen - 1 * 1 - 1 * 4 = 95 := by
    simp only [Player.new]; norm_num
  rw [h95] at h
  have hmax : max (0 : ℚ) 95 = 95 := by norm_num
  rw [hmax] at h
  refine ⟨h, ?_⟩
  rw [h]
  have h96 : max (0 : ℚ) (({ Player.new ⟨0, 0⟩ 0 with fuel := 0 } : Player).oxygen - 4 * 1) = 96 := by
    simp only [Player.new]; norm_num
  rw [h96]
  norm_num

/-- C9, amended: for a player with fuel exactly 0 and `dt ≥ 0`, one `tick(dt)` lowers
oxygen by five times the base decay (the base `dt` plus the empty-tank `4 dt`),
clamped at 0. -/
theorem empty_tank_decay_fivefold (sqrtf : ℚ → ℚ) (p : Player) (dt : ℚ)
    (hfuel : p.fuel = 0) (hdt : 0 ≤ dt) :
    (p.tick sqrtf dt).oxygen = max 0 (p.oxygen - 5 * dt) := by
  rw [Player.tick_oxygen, if_pos hfuel]
  congr 1
  ring

/-- An empty tank with oxygen 100 and `dt = 1`: oxygen falls to `max 0 (100 - 5)`. -/
theorem empty_tank_decay_fivefold_run :
    let p : Player := { Player.new ⟨0, 0⟩ 0 with fuel := 0 }
    (p.tick Rat.sqrt 1).oxygen = max 0 (100 - 5 * 1) :=
  empty_tank_decay_fivefold Rat.sqrt { Player.new ⟨0, 0⟩ 0 with fuel := 0 } 1 rfl (by norm_num)

theorem Player.tickInput_idle (sqrtf : ℚ → ℚ) (hsqrt : sqrtf 0 = 0) (p : Player) (dt : ℚ)
    (hfuel : 0 < p.fuel) :
    (p.tickInput sqrtf dt {}).fuel = p.fuel
      ∧ (p.tickInput sqrtf dt {}).oxygen = max 0 (p.oxygen - dt) := by
  have hne : p.fuel ≠ 0 := ne_of_gt hfuel
  constructor
  · have hf := Player.tick_fuel sqrtf p dt
    unfold Player.tickInput
    generalize p.tick sqrtf dt = q at hf ⊢
    have hq : ¬ q.fuel ≤ 0 := by rw [hf]; exact not_le.mpr hfuel
    have hacc : VecLength sqrtf
        (Player.inputAcc { q with points := q.fuel * (1 / 5) + q.oxygen * (1 / 2) } dt {}) = 0 := by
      simp [Player.inputAcc, VecLength, hsqrt]
    dsimp only
    rw [hacc]
    by_cases ho : q.oxygen = 0
    · rw [if_pos ho]; exact hf
    · rw [if_neg ho]
      simp only [ne_eq, not_true_eq_false, false_and, if_false, hq, decide_False,
        Bool.false_eq_true]
      exact hf
  · rw [Player.tickInput_oxygen, Player.tick_oxygen, if_neg hne]
    congr 1
    ring

theorem decay_step (o dt : ℚ) (n : Nat) (ho : 0 ≤ o) :
    max 0 (max 0 (o - dt) - (n : ℚ) * dt) = max 0 (o - ((n + 1 : Nat) : ℚ) * dt) := by
  have hn : (0 : ℚ) ≤ n := Nat.cast_nonneg n
  push_cast
  rcases le_total 0 (o - dt) with h | h
  · rw [max_eq_right h]
    congr 1
    ring
  · have hdt : 0 ≤ dt := by linarith
    have hnd : 0 ≤ (n : ℚ) * dt := mul_nonneg hn hdt
    rw [max_eq_left h, max_eq_left (by linarith), max_eq_left (by nlinarith)]

/-- C10 (base oxygen decay): for a player with fuel above 0 (and oxygen not below 0),
`n` calls of `tick(dt, input)` with all input flags false leave fuel unchanged and
oxygen equal to `max 0 (oxygen0 - n dt)`.  The fact used about `std::sqrt` is
`sqrt 0 = 0`. -/
theorem base_oxygen_decay (sqrtf : ℚ → ℚ) (hsqrt : sqrtf 0 = 0) (dt : ℚ) (n : Nat) :
    ∀ p : Player, 0 < p.fuel → 0 ≤ p.oxygen →
      (Player.tickInputN sqrtf dt {} n p).fuel = p.fuel
        ∧ (Player.tickInputN sqrtf dt {} n p).oxygen = max 0 (p.oxygen - (n : ℚ) * dt) := by
  induction n with
  | zero =>
    intro p _ hox
    simp [Player.tickInputN, hox]
  | succ n ih =>
    intro p hfuel hox
    obtain ⟨hf, ho⟩ := Player.tickInput_idle sqrtf hsqrt p dt hfuel
    have h := ih (p.tickInput sqrtf dt {}) (by rw [hf]; exact hfuel)
      (by rw [ho]; exact le_max_left _ _)
    simp only [Player.tickInputN]
    rw [h.1, h.2, hf, ho]
    exact ⟨rfl, decay_step p.oxygen dt n hox⟩

/-- The spec scenario for C10: fuel 100, oxygen 100, `dt = 1` applied 40 times gives
oxygen 60 and fuel 100. -/
theorem base_oxygen_decay_scenario :
    (Player.tickInputN Rat.sqrt 1 {} 40 (Player.new ⟨0, 0⟩ 0)).fuel = 100
      ∧ (Player.tickInputN Rat.sqrt 1 {} 40 (Player.new ⟨0, 0⟩ 0)).oxygen = 60 := by
  have h := base_oxygen_decay Rat.sqrt (by simp [Rat.sqrt]) 1 40 (Player.new ⟨0, 0⟩ 0)
    (by simp [Player.new]) (by simp [Player.new])
  refine ⟨h.1, ?_⟩
  rw [h.2]
  simp only [Player.new]
  norm_num

/-! ### Obstacle population manager -/

theorem Asteroids.createLoop_created (sqrtf : ℚ → ℚ) (texWidth texHeight maxDistance : Int)
    (targetPos : Vector2f) (n : Nat) :
    ∀ (toCreate : Int) (asteroids : List Asteroid) (draws : List Nat)
      (res : List Asteroid × List Nat), toCreate.toNat = n →
      Asteroids.createLoop sqrtf texWidth texHeight maxDistance targetPos toCreate asteroids draws
        = some res →
      ∃ created, res.1 = asteroids ++ created ∧ (created.length : Int) = toCreate - 1 := by
  induction n with
  | zero =>
    intro toCreate asteroids draws res hn hres
    rw [Asteroids.createLoop] at hres
    have h0 : ¬ (toCreate - 1 = 0) := by omega
    have h1 : toCreate - 1 < 0 := by omega
    simp only [h0, if_false, h1, dif_pos] at hres
    cases hres
  | succ n ih =>
    intro toCreate asteroids draws res hn hres
    rw [Asteroids.createLoop] at hres
    by_cases h0 : toCreate - 1 = 0
    · simp only [h0, if_true, Option.some.injEq] at hres
      subst hres
      exact ⟨[], by simp, by simp [h0]⟩
    · have h1 : ¬ (toCreate - 1 < 0) := by omega
      simp only [h0, if_false, h1, dif_neg, not_false_eq_true] at hres
      cases hspawn : Asteroids.spawnOne sqrtf texWidth texHeight maxDistance targetPos draws with
      | none => rw [hspawn] at hres; cases hres
      | some r =>
        obtain ⟨asteroid, draws'⟩ := r
        rw [hspawn] at hres
        obtain ⟨created, hc, hlen⟩ := ih (toCreate - 1) (asteroids ++ [asteroid]) draws' res
          (by omega) hres
        refine ⟨asteroid :: created, ?_, ?_⟩
        · rw [hc]; simp
        · simp only [List.length_cons]; push_cast; omega

theorem Asteroids.tickAll_length (sqrtf : ℚ → ℚ) (df : ℚ) (asteroids : List Asteroid) :
    ∀ player : Player, (Asteroids.tickAll sqrtf df asteroids player).1.length = asteroids.length := by
  induction asteroids with
  | nil => intro player; rfl
  | cons a rest ih =>
    intro player
    simp only [Asteroids.tickAll, List.length_cons, ih]

theorem Asteroids.tick_population (sqrtf : ℚ → ℚ) (texWidth texHeight : Int) (self : Asteroids)
    (player : Player) (df : ℚ) (draws : List Nat) (r : Asteroids × Player × List Nat)
    (hr : Asteroids.tick sqrtf texWidth texHeight self player df draws = some r) :
    r.1.maxAsteroids = self.maxAsteroids ∧ r.1.maxDistance = self.maxDistance ∧
    ∃ created,
      r.1.asteroids = (Asteroids.tickAll sqrtf df
        ((Asteroids.despawn sqrtf self player.toMovable).asteroids ++ created) player).1
      ∧ (((Asteroids.despawn sqrtf self player.toMovable).asteroids.length : Int)
            < self.maxAsteroids % 18446744073709551616 →
          (created.length : Int) = toInt32 (self.maxAsteroids
            - ((Asteroids.despawn sqrtf self player.toMovable).asteroids.length : Int)) - 1)
      ∧ (¬ ((Asteroids.despawn sqrtf self player.toMovable).asteroids.length : Int)
            < self.maxAsteroids % 18446744073709551616 → created = []) := by
  unfold Asteroids.tick at hr
  dsimp only at hr
  have hmax : (Asteroids.despawn sqrtf self player.toMovable).maxAsteroids = self.maxAsteroids := rfl
  have hdist : (Asteroids.despawn sqrtf self player.toMovable).maxDistance = self.maxDistance := rfl
  rw [hmax] at hr
  generalize Asteroids.despawn sqrtf self player.toMovable = kept at hr hmax hdist ⊢
  by_cases hlt : (kept.asteroids.length : Int) < self.maxAsteroids % 18446744073709551616
  · rw [if_pos hlt] at hr
    unfold Asteroids.CreateAsteroids at hr
    dsimp only at hr
    cases hloop : Asteroids.createLoop sqrtf texWidth texHeight kept.maxDistance player.pos
        (toInt32 (kept.maxAsteroids - (kept.asteroids.length : Int))) kept.asteroids draws with
    | none => rw [hloop] at hr; cases hr
    | some res =>
      rw [hloop] at hr
      obtain ⟨created, hc, hlen⟩ := Asteroids.createLoop_created sqrtf texWidth texHeight
        kept.maxDistance player.pos _ _ kept.asteroids draws res rfl hloop
      simp only [Option.some.injEq] at hr
      subst hr
      refine ⟨hmax, hdist, created, ?_, ?_, ?_⟩
      · simp only [hc]
      · intro _; rw [← hmax]; exact hlen
      · intro h; exact absurd hlt h
  · rw [if_neg hlt] at hr
    simp only [Option.some.injEq] at hr
    subst hr
    refine ⟨hmax, hdist, [], ?_, ?_, ?_⟩
    · simp
    · intro h; exact absurd h hlt
    · intro _; rfl

theorem Asteroids.spawnOne_zeros (sqrtf : ℚ → ℚ) (hs : ¬ sqrtf 2000000 < 450)
    (texWidth texHeight : Int) (rest : List Nat) :
    ∃ a, Asteroids.spawnOne sqrtf texWidth texHeight 1000 ⟨0, 0⟩
      (0 :: 0 :: 0 :: 0 :: 0 :: 0 :: 0 :: 0 :: 0 :: 0 :: 0 :: rest) = some (a, rest) := by
  have hreject : Asteroids.rejectLoop sqrtf 1000 ⟨0, 0⟩ ⟨-1000, -1000⟩ (0 :: 0 :: 0 :: rest)
      = some (⟨-1000, -1000⟩, 0 :: 0 :: 0 :: rest) := by
    rw [Asteroids.rejectLoop]
    have hlen : PointLen sqrtf ⟨-1000, -1000⟩ ⟨0, 0⟩ = sqrtf 2000000 := by
      unfold PointLen VecLength
      norm_num
    rw [hlen, if_neg hs]
  simp [Asteroids.spawnOne, Asteroid.new, rand, Asteroids.randomPos, hreject]

theorem Asteroids.createLoop_zeros (sqrtf : ℚ → ℚ) (hs : ¬ sqrtf 2000000 < 450)
    (texWidth texHeight : Int) (n : Nat) :
    ∀ (asteroids : List Asteroid) (rest : List Nat),
      ∃ res, Asteroids.createLoop sqrtf texWidth texHeight 1000 ⟨0, 0⟩ ((n : Int) + 1) asteroids
        (List.replicate (11 * n) 0 ++ rest) = some (res, rest) := by
  induction n with
  | zero =>
    intro asteroids rest
    rw [Asteroids.createLoop]
    exact ⟨asteroids, by simp⟩
  | succ n ih =>
    intro asteroids rest
    have hdraws : List.replicate (11 * (n + 1)) 0 ++ rest
        = 0 :: 0 :: 0 :: 0 :: 0 :: 0 :: 0 :: 0 :: 0 :: 0 :: 0 :: (List.replicate (11 * n) 0 ++ rest) := by
      have h11 : 11 * (n + 1) = 11 * n + 11 := by ring
      rw [h11]
      simp [List.replicate_succ]
    obtain ⟨a, ha⟩ := Asteroids.spawnOne_zeros sqrtf hs texWidth texHeight
      (List.replicate (11 * n) 0 ++ rest)
    obtain ⟨res, hres⟩ := ih (asteroids ++ [a]) rest
    refine ⟨res, ?_⟩
    rw [Asteroids.createLoop, hdraws, ha]
    have h0 : ¬ (((n + 1 : Nat) : Int) + 1 - 1 = 0) := by omega
    have h1 : ¬ (((n + 1 : Nat) : Int) + 1 - 1 < 0) := by omega
    have h2 : ((n + 1 : Nat) : Int) + 1 - 1 = (n : Int) + 1 := by omega
    simp only [h0, if_false, h1, dif_neg, not_false_eq_true, h2]
    exact hres

/-- The population reached from a deficit: when the despawn pass leaves fewer than
`maxAsteroids` obstacles and `tick` returns, it returns `maxAsteroids - 1` obstacles,
because `while (--toCreate)` runs one time fewer than the deficit. -/
theorem Asteroids.tick_one_short (sqrtf : ℚ → ℚ) (texWidth texHeight : Int) (self : Asteroids)
    (player : Player) (df : ℚ) (draws : List Nat) (r : Asteroids × Player × List Nat)
    (hmax : 0 ≤ self.maxAsteroids ∧ self.maxAsteroids ≤ 2147483647)
    (hlt : ((Asteroids.despawn sqrtf self player.toMovable).asteroids.length : Int)
      < self.maxAsteroids)
    (hr : Asteroids.tick sqrtf texWidth texHeight self player df draws = some r) :
    (r.1.asteroids.length : Int) = self.maxAsteroids - 1 := by
  obtain ⟨_, _, created, hc, hlen, _⟩ :=
    Asteroids.tick_population sqrtf texWidth texHeight self player df draws r hr
  have hlen' := hlen (by omega)
  rw [hc, Asteroids.tickAll_length, List.length_append]
  unfold toInt32 at hlen'
  push_cast
  omega

theorem Asteroids.CreateAsteroids_eq (sqrtf : ℚ → ℚ) (texWidth texHeight : Int) (self : Asteroids)
    (target : Movable) (draws : List Nat) (toCreate : Int) (res : List Asteroid × List Nat)
    (hto : toInt32 (self.maxAsteroids - (self.asteroids.length : Int)) = toCreate)
    (hloop : Asteroids.createLoop sqrtf texWidth texHeight self.maxDistance target.pos toCreate
      self.asteroids draws = some res) :
    Asteroids.CreateAsteroids sqrtf texWidth texHeight self target draws
      = some ({ self with asteroids := res.1 }, res.2) := by
  unfold Asteroids.CreateAsteroids
  simp only [hto, hloop]

theorem Asteroids.tick_eq_of_create (sqrtf : ℚ → ℚ) (texWidth texHeight : Int) (self : Asteroids)
    (player : Player) (df : ℚ) (draws : List Nat) (created : Asteroids × List Nat)
    (hlt : ((Asteroids.despawn sqrtf self player.toMovable).asteroids.length : Int)
      < (Asteroids.despawn sqrtf self player.toMovable).maxAsteroids % 18446744073709551616)
    (hC : Asteroids.CreateAsteroids sqrtf texWidth texHeight
      (Asteroids.despawn sqrtf self player.toMovable) player.toMovable draws = some created) :
    Asteroids.tick sqrtf texWidth texHeight self player df draws
      = some ({ created.1 with
                  asteroids := (Asteroids.tickAll sqrtf df created.1.asteroids player).1 },
              (Asteroids.tickAll sqrtf df created.1.asteroids player).2, created.2) := by
  unfold Asteroids.tick
  simp only [hlt, if_true, hC]

theorem Asteroids.tick_eq_of_full (sqrtf : ℚ → ℚ) (texWidth texHeight : Int) (self : Asteroids)
    (player : Player) (df : ℚ) (draws : List Nat)
    (hge : ¬ ((Asteroids.despawn sqrtf self player.toMovable).asteroids.length : Int)
      < (Asteroids.despawn sqrtf self player.toMovable).maxAsteroids % 18446744073709551616) :
    Asteroids.tick sqrtf texWidth texHeight self player df draws
      = some ({ Asteroids.despawn sqrtf self player.toMovable with
                  asteroids := (Asteroids.tickAll sqrtf df
                    (Asteroids.despawn sqrtf self player.toMovable).asteroids player).1 },
              (Asteroids.tickAll sqrtf df
                (Asteroids.despawn sqrtf self player.toMovable).asteroids player).2, draws) := by
  unfold Asteroids.tick
  simp only [hge, if_false]

theorem sqrt_two_million : Rat.sqrt 2000000 = 1414 := by
  have h : Nat.sqrt 2000000 = 1414 := by symm; rw [Nat.eq_sqrt]; norm_num
  have h1 : Nat.sqrt 1 = 1 := by symm; rw [Nat.eq_sqrt]; norm_num
  have hn : (2000000 : ℚ).num = 2000000 := by norm_cast
  have hd : (2000000 : ℚ).den = 1 := by norm_cast
  unfold Rat.sqrt
  rw [hn, hd, h1]
  simp [Int.sqrt, h]

/-- C6 at the start of level 0: the population is empty, the target is 10, every
draw of `rand()` is 0 and the spawn loop terminates, yet `Asteroids::tick` returns
9 obstacles, one fewer than the target. -/
theorem level_start_spawns_nine :
    ∃ r, Asteroids.tick Rat.sqrt 100 100 (Asteroids.new 0) (Player.new ⟨0, 0⟩ 0) 1
        (List.replicate 99 0) = some r
      ∧ r.1.maxAsteroids = 10 ∧ r.1.asteroids.length = 9 := by
  have hs : ¬ Rat.sqrt 2000000 < 450 := by rw [sqrt_two_million]; norm_num
  obtain ⟨res, hres⟩ := Asteroids.createLoop_zeros Rat.sqrt hs 100 100 9 [] []
  have hcreate : Asteroids.createLoop Rat.sqrt 100 100 1000 ⟨0, 0⟩ 10 [] (List.replicate 99 0)
      = some (res, []) := by
    simpa using hres
  have h10 : toInt32 ((Asteroids.new 0).maxAsteroids - ((Asteroids.new 0).asteroids.length : Int))
      = 10 := by
    simp only [Asteroids.new, toInt32, List.length_nil]
    norm_num
  have hcond : (((Asteroids.new 0).asteroids.length : Int)
      < (Asteroids.new 0).maxAsteroids % 18446744073709551616) := by
    simp only [Asteroids.new, List.length_nil]
    norm_num
  have hC := Asteroids.CreateAsteroids_eq Rat.sqrt 100 100 (Asteroids.new 0)
    (Player.new ⟨0, 0⟩ 0).toMovable (List.replicate 99 0) 10 (res, []) h10 hcreate
  have htick := Asteroids.tick_eq_of_create Rat.sqrt 100 100 (Asteroids.new 0)
    (Player.new ⟨0, 0⟩ 0) 1 (List.replicate 99 0) _ hcond hC
  refine ⟨_, htick, rfl, ?_⟩
  have hlt : ((Asteroids.despawn Rat.sqrt (Asteroids.new 0)
      (Player.new ⟨0, 0⟩ 0).toMovable).asteroids.length : Int) < (Asteroids.new 0).maxAsteroids := by
    simp only [Asteroids.despawn, Asteroids.new, List.filter_nil, List.length_nil]
    norm_num
  have h := Asteroids.tick_one_short Rat.sqrt 100 100 (Asteroids.new 0) (Player.new ⟨0, 0⟩ 0) 1
    (List.replicate 99 0) _ (by simp only [Asteroids.new]; norm_num) hlt htick
  have h9 : (Asteroids.new 0).maxAsteroids - 1 = 9 := by
    simp only [Asteroids.new]
    norm_num
  rw [h9] at h
  exact_mod_cast h

theorem Asteroids.mem_despawn (sqrtf : ℚ → ℚ) (self : Asteroids) (target : Movable)
    (a : Asteroid) :
    a ∈ (Asteroids.despawn sqrtf self target).asteroids
      ↔ a ∈ self.asteroids ∧ PointLen sqrtf target.pos a.pos ≤ (self.maxDistance : ℚ) := by
  unfold Asteroids.despawn
  simp only [List.mem_filter, Bool.not_eq_true', decide_eq_false_iff_not, not_lt]

theorem Asteroid.tick_unattached (sqrtf : ℚ → ℚ) (a : Asteroid) (player : Player) (dt : ℚ)
    (h : a.PlayerRef = false) : (a.tick sqrtf player dt).2 = player := by
  unfold Asteroid.tick
  simp [h]

theorem Asteroids.tickAll_replicate (sqrtf : ℚ → ℚ) (df : ℚ) (a : Asteroid) (player : Player)
    (h : a.PlayerRef = false) (n : Nat) :
    Asteroids.tickAll sqrtf df (List.replicate n a) player
      = (List.replicate n (a.tick sqrtf player df).1, player) := by
  induction n with
  | zero => rfl
  | succ n ih =>
    simp only [List.replicate_succ, Asteroids.tickAll, Asteroid.tick_unattached sqrtf a player df h,
      ih]

/-- The population of the C7 counterexample: ten obstacles on the despawn radius,
moving outwards. -/
theorem outward_population_kept :
    Asteroids.despawn Rat.sqrt
        { maxAsteroids := 10, maxDistance := 1000,
          asteroids := List.replicate 10 (Asteroid.at ⟨1000, 0⟩ ⟨100, 0⟩) }
        (Player.new ⟨0, 0⟩ 0).toMovable
      = { maxAsteroids := 10, maxDistance := 1000,
          asteroids := List.replicate 10 (Asteroid.at ⟨1000, 0⟩ ⟨100, 0⟩) } := by
  have hlen : PointLen Rat.sqrt (Player.new ⟨0, 0⟩ 0).pos (Asteroid.at ⟨1000, 0⟩ ⟨100, 0⟩).pos
      = 1000 := by
    have h : PointLen Rat.sqrt (Player.new ⟨0, 0⟩ 0).pos (Asteroid.at ⟨1000, 0⟩ ⟨100, 0⟩).pos
        = Rat.sqrt (1000 * 1000) := by
      simp only [PointLen, VecLength, Player.new, Asteroid.at]
      norm_num
    rw [h, Rat.sqrt_eq]
    norm_num
  unfold Asteroids.despawn
  simp only [Asteroids.mk.injEq, true_and]
  rw [List.filter_eq_self]
  intro a ha
  rw [List.eq_of_mem_replicate ha, hlen]
  norm_num

theorem outward_population_tick :
    Asteroids.tick Rat.sqrt 100 100
        { maxAsteroids := 10, maxDistance := 1000,
          asteroids := List.replicate 10 (Asteroid.at ⟨1000, 0⟩ ⟨100, 0⟩) }
        (Player.new ⟨0, 0⟩ 0) 1 []
      = some ({ maxAsteroids := 10, maxDistance := 1000,
                asteroids := List.replicate 10
                  ((Asteroid.at ⟨1000, 0⟩ ⟨100, 0⟩).tick Rat.sqrt (Player.new ⟨0, 0⟩ 0) 1).1 },
              Player.new ⟨0, 0⟩ 0, []) := by
  rw [Asteroids.tick_eq_of_full, outward_population_kept, Asteroids.tickAll_replicate _ _ _ _ rfl]
  rw [outward_population_kept]
  simp only [List.length_replicate]
  norm_num

/-- C7 fails as stated: ten obstacles on the despawn radius (1000, 0) moving outwards
at speed 100 survive the despawn pass, no obstacle is spawned, and after
`Asteroids::tick` with `dt = 1` they are at distance 1100 from the player. -/
theorem obstacle_beyond_max_distance :
    ∃ r, Asteroids.tick Rat.sqrt 100 100
        { maxAsteroids := 10, maxDistance := 1000,
          asteroids := List.replicate 10 (Asteroid.at ⟨1000, 0⟩ ⟨100, 0⟩) }
        (Player.new ⟨0, 0⟩ 0) 1 [] = some r
      ∧ ∃ a ∈ r.1.asteroids, PointLen Rat.sqrt r.2.1.pos a.pos > (r.1.maxDistance : ℚ) := by
  refine ⟨_, outward_population_tick, _, List.mem_cons_self _ _, ?_⟩
  have h : PointLen Rat.sqrt (Player.new ⟨0, 0⟩ 0).pos
      ((Asteroid.at ⟨1000, 0⟩ ⟨100, 0⟩).tick Rat.sqrt (Player.new ⟨0, 0⟩ 0) 1).1.pos
      = Rat.sqrt (1100 * 1100) := by
    simp only [PointLen, VecLength, Player.new, Asteroid.at, Asteroid.tick, Movable.PhysicsTick,
      Vector2f.add, Vector2f.scale]
    norm_num
  show PointLen Rat.sqrt (Player.new ⟨0, 0⟩ 0).pos
      ((Asteroid.at ⟨1000, 0⟩ ⟨100, 0⟩).tick Rat.sqrt (Player.new ⟨0, 0⟩ 0) 1).1.pos > ((1000 : Int) : ℚ)
  rw [h, Rat.sqrt_eq]
  norm_num

/-- C7, amended: whenever `Asteroids::tick` returns, the despawn pass at its head has
kept exactly the obstacles whose distance from the reference point is at most
`maxDistance`, and the obstacles live afterwards are these survivors followed by the
obstacles spawned in this tick, each advanced by its own `tick`. -/
theorem despawn_then_spawn_and_move (sqrtf : ℚ → ℚ) (texWidth texHeight : Int)
    (self : Asteroids) (player : Player) (df : ℚ) (draws : List Nat)
    (r : Asteroids × Player × List Nat)
    (hr : Asteroids.tick sqrtf texWidth texHeight self player df draws = some r) :
    (∀ a, a ∈ (Asteroids.despawn sqrtf self player.toMovable).asteroids
        ↔ a ∈ self.asteroids ∧ PointLen sqrtf player.pos a.pos ≤ (self.maxDistance : ℚ))
      ∧ ∃ created, r.1.asteroids = (Asteroids.tickAll sqrtf df
          ((Asteroids.despawn sqrtf self player.toMovable).asteroids ++ created) player).1 := by
  refine ⟨fun a => Asteroids.mem_despawn sqrtf self player.toMovable a, ?_⟩
  obtain ⟨_, _, created, hc, _⟩ :=
    Asteroids.tick_population sqrtf texWidth texHeight self player df draws r hr
  exact ⟨created, hc⟩

/-- Ten obstacles on the despawn radius: all of them are survivors of the despawn
pass and nothing is spawned. -/
theorem despawn_then_spawn_and_move_outward :
    ∃ created, List.replicate 10
        ((Asteroid.at ⟨1000, 0⟩ ⟨100, 0⟩).tick Rat.sqrt (Player.new ⟨0, 0⟩ 0) 1).1
      = (Asteroids.tickAll Rat.sqrt 1
          ((Asteroids.despawn Rat.sqrt
            { maxAsteroids := 10, maxDistance := 1000,
              asteroids := List.replicate 10 (Asteroid.at ⟨1000, 0⟩ ⟨100, 0⟩) }
            (Player.new ⟨0, 0⟩ 0).toMovable).asteroids ++ created) (Player.new ⟨0, 0⟩ 0)).1 :=
  (despawn_then_spawn_and_move Rat.sqrt 100 100
    { maxAsteroids := 10, maxDistance := 1000,
      asteroids := List.replicate 10 (Asteroid.at ⟨1000, 0⟩ ⟨100, 0⟩) }
    (Player.new ⟨0, 0⟩ 0) 1 [] _ outward_population_tick).2

/-! ### Input with an empty tank and the kill guard -/

theorem Vector2f.add_zero_vec (a : Vector2f) : a.add ⟨0, 0⟩ = a := by
  cases a
  simp [Vector2f.add]

theorem Player.tickInput_empty_tank (sqrtf : ℚ → ℚ) (p : Player) (dt : ℚ) (input : inputs)
    (hfuel : p.fuel = 0) :
    p.tickInput sqrtf dt input
      = if (p.tick sqrtf dt).oxygen = 0 then
          { p.tick sqrtf dt with
              points := (p.tick sqrtf dt).fuel * (1 / 5) + (p.tick sqrtf dt).oxygen * (1 / 2) }
        else
          { p.tick sqrtf dt with
              points := (p.tick sqrtf dt).fuel * (1 / 5) + (p.tick sqrtf dt).oxygen * (1 / 2),
              fuel := 0 } := by
  have hf : (p.tick sqrtf dt).fuel = 0 := by rw [Player.tick_fuel]; exact hfuel
  unfold Player.tickInput
  generalize p.tick sqrtf dt = q at hf ⊢
  dsimp only
  by_cases ho : q.oxygen = 0
  · rw [if_pos ho, if_pos ho]
  · rw [if_neg ho, if_neg ho]
    simp only [hf, ne_eq, not_true_eq_false, and_false, if_false, le_refl, decide_True, if_true,
      Movable.addAcc, Vector2f.add_zero_vec]

/-- C11 (empty-tank input is ignored): for a player with fuel 0, every `dt ≥ 0` and
every two input snapshots, `tick(dt, i1)` and `tick(dt, i2)` give the same player, in
particular the same accumulator, position and fuel; the accumulator and the position
are those left by `tick(dt)` alone, so the input contributes nothing. -/
theorem empty_tank_ignores_input (sqrtf : ℚ → ℚ) (p : Player) (dt : ℚ) (i1 i2 : inputs)
    (hfuel : p.fuel = 0) (hdt : 0 ≤ dt) :
    p.tickInput sqrtf dt i1 = p.tickInput sqrtf dt i2
      ∧ (p.tickInput sqrtf dt i1).acc = (p.tick sqrtf dt).acc
      ∧ (p.tickInput sqrtf dt i1).pos = (p.tick sqrtf dt).pos
      ∧ (p.tickInput sqrtf dt i1).fuel = 0 := by
  have hf : (p.tick sqrtf dt).fuel = 0 := by rw [Player.tick_fuel]; exact hfuel
  rw [Player.tickInput_empty_tank sqrtf p dt i1 hfuel,
    Player.tickInput_empty_tank sqrtf p dt i2 hfuel]
  refine ⟨rfl, ?_, ?_, ?_⟩
  · split_ifs <;> rfl
  · split_ifs <;> rfl
  · split_ifs
    · exact hf
    · rfl

/-- An empty tank with velocity (30, 0): thrust up and the brake give the same tick. -/
theorem empty_tank_ignores_input_run :
    let p : Player := { Player.new ⟨0, 0⟩ 0 with fuel := 0, acc := ⟨30, 0⟩ }
    p.tickInput Rat.sqrt 1 { W := true } = p.tickInput Rat.sqrt 1 { SPACE := true }
      ∧ (p.tickInput Rat.sqrt 1 { W := true }).acc = (p.tick Rat.sqrt 1).acc
      ∧ (p.tickInput Rat.sqrt 1 { W := true }).pos = (p.tick Rat.sqrt 1).pos
      ∧ (p.tickInput Rat.sqrt 1 { W := true }).fuel = 0 :=
  empty_tank_ignores_input Rat.sqrt { Player.new ⟨0, 0⟩ 0 with fuel := 0, acc := ⟨30, 0⟩ } 1
    { W := true } { SPACE := true } rfl (by norm_num)

theorem Player.Kill_effective (p : Player) (now : ℚ) (h : p.creationTime - 15 ≤ now) :
    (p.Kill now).fuel = 0 ∧ (p.Kill now).oxygen = 0 ∧ (p.Kill now).dead = true := by
  unfold Player.Kill
  have hn : ¬ (p.creationTime - now > 15) := by
    intro hgt
    linarith
  rw [if_neg hn]
  exact ⟨rfl, rfl, rfl⟩

/-- C12 inside the grace window: a player created when the clock reads 0 and killed
one second later loses fuel and oxygen and is marked dead; `Kill` is not a no-op. -/
theorem kill_inside_grace_window :
    (Player.Kill (Player.new ⟨0, 0⟩ 0) 1).fuel = 0
      ∧ (Player.Kill (Player.new ⟨0, 0⟩ 0) 1).oxygen = 0
      ∧ (Player.Kill (Player.new ⟨0, 0⟩ 0) 1).dead = true
      ∧ Player.Kill (Player.new ⟨0, 0⟩ 0) 1 ≠ Player.new ⟨0, 0⟩ 0 := by
  have h := Player.Kill_effective (Player.new ⟨0, 0⟩ 0) 1 (by simp [Player.new]; norm_num)
  refine ⟨h.1, h.2.1, h.2.2, ?_⟩
  intro heq
  have hd := h.2.2
  rw [heq] at hd
  simp [Player.new] at hd

/-! ### Motion integration -/

theorem Movable.PhysicsTick_pos (sqrtf : ℚ → ℚ) (m : Movable) (dt maxSpeed : ℚ) :
    (m.PhysicsTick sqrtf dt maxSpeed).pos
      = m.pos.add ((m.PhysicsTick sqrtf dt maxSpeed).acc.scale dt) := rfl

/-- C14 (motion integration with clamp): when `maxSpeed > 0` and `|acc| > maxSpeed`,
`PhysicsTick(dt, maxSpeed)` rescales the accumulator to `acc * (maxSpeed / |acc|)`, a
positive multiple of `acc` whose squared magnitude is `maxSpeed²` (given that the
computed length squares to `acc · acc`), and sets `pos' = pos + acc' * dt`; when
`maxSpeed = 0` or `|acc| ≤ maxSpeed` the accumulator is unchanged and
`pos' = pos + acc * dt`. -/
theorem physics_tick_clamp (sqrtf : ℚ → ℚ) (m : Movable) (dt maxSpeed : ℚ) :
    (0 < maxSpeed → VecLength sqrtf m.acc > maxSpeed →
        (m.PhysicsTick sqrtf dt maxSpeed).acc = m.acc.scale (maxSpeed / VecLength sqrtf m.acc)
        ∧ 0 < maxSpeed / VecLength sqrtf m.acc
        ∧ (VecLength sqrtf m.acc * VecLength sqrtf m.acc = m.acc.x * m.acc.x + m.acc.y * m.acc.y →
            (m.PhysicsTick sqrtf dt maxSpeed).acc.x * (m.PhysicsTick sqrtf dt maxSpeed).acc.x
              + (m.PhysicsTick sqrtf dt maxSpeed).acc.y * (m.PhysicsTick sqrtf dt maxSpeed).acc.y
              = maxSpeed * maxSpeed)
        ∧ (m.PhysicsTick sqrtf dt maxSpeed).pos
            = m.pos.add ((m.acc.scale (maxSpeed / VecLength sqrtf m.acc)).scale dt))
      ∧ (maxSpeed = 0 ∨ VecLength sqrtf m.acc ≤ maxSpeed →
          (m.PhysicsTick sqrtf dt maxSpeed).acc = m.acc
          ∧ (m.PhysicsTick sqrtf dt maxSpeed).pos = m.pos.add (m.acc.scale dt)) := by
  constructor
  · intro hmax hlen
    have hL : 0 < VecLength sqrtf m.acc := lt_trans hmax hlen
    have hne : VecLength sqrtf m.acc ≠ 0 := ne_of_gt hL
    have hacc : (m.PhysicsTick sqrtf dt maxSpeed).acc
        = m.acc.scale (maxSpeed / VecLength sqrtf m.acc) := by
      unfold Movable.PhysicsTick
      simp only [ne_eq, ne_of_gt hmax, not_false_eq_true, if_true, hlen, normalize,
        Vector2f.div, Vector2f.scale, Vector2f.mk.injEq]
      constructor <;> field_simp
    refine ⟨hacc, div_pos hmax hL, ?_, ?_⟩
    · intro hsq
      rw [hacc]
      simp only [Vector2f.scale]
      have hkey : m.acc.x * (maxSpeed / VecLength sqrtf m.acc)
            * (m.acc.x * (maxSpeed / VecLength sqrtf m.acc))
          + m.acc.y * (maxSpeed / VecLength sqrtf m.acc)
            * (m.acc.y * (maxSpeed / VecLength sqrtf m.acc))
          = (m.acc.x * m.acc.x + m.acc.y * m.acc.y) * (maxSpeed * maxSpeed)
            / (VecLength sqrtf m.acc * VecLength sqrtf m.acc) := by
        field_simp
        ring
      rw [hkey, ← hsq]
      field_simp
    · rw [Movable.PhysicsTick_pos, hacc]
  · intro h
    have hacc : (m.PhysicsTick sqrtf dt maxSpeed).acc = m.acc := by
      unfold Movable.PhysicsTick
      rcases h with h0 | hle
      · simp [h0]
      · simp [not_lt.mpr hle]
    refine ⟨hacc, ?_⟩
    rw [Movable.PhysicsTick_pos, hacc]

/-- An accumulator (600, 800) of length 1000 is clamped to (300, 400) under
`maxSpeed = 500`; an accumulator (30, 40) of length 50 is left alone. -/
theorem physics_tick_clamp_run :
    (Movable.PhysicsTick Rat.sqrt ⟨⟨0, 0⟩, ⟨600, 800⟩⟩ 1 500).acc = ⟨300, 400⟩
      ∧ (Movable.PhysicsTick Rat.sqrt ⟨⟨0, 0⟩, ⟨600, 800⟩⟩ 1 500).pos = ⟨300, 400⟩
      ∧ (Movable.PhysicsTick Rat.sqrt ⟨⟨0, 0⟩, ⟨30, 40⟩⟩ 1 500).acc = ⟨30, 40⟩
      ∧ (Movable.PhysicsTick Rat.sqrt ⟨⟨0, 0⟩, ⟨30, 40⟩⟩ 1 500).pos = ⟨30, 40⟩ := by
  have h1 : VecLength Rat.sqrt ⟨600, 800⟩ = 1000 := by
    have h : VecLength Rat.sqrt ⟨600, 800⟩ = Rat.sqrt (1000 * 1000) := by
      simp only [VecLength]; norm_num
    rw [h, Rat.sqrt_eq]; norm_num
  have h2 : VecLength Rat.sqrt ⟨30, 40⟩ = 50 := by
    have h : VecLength Rat.sqrt ⟨30, 40⟩ = Rat.sqrt (50 * 50) := by
      simp only [VecLength]; norm_num
    rw [h, Rat.sqrt_eq]; norm_num
  obtain ⟨ha, _, _, hp⟩ := (physics_tick_clamp Rat.sqrt ⟨⟨0, 0⟩, ⟨600, 800⟩⟩ 1 500).1
    (by norm_num) (by rw [h1]; norm_num)
  obtain ⟨hb, hq⟩ := (physics_tick_clamp Rat.sqrt ⟨⟨0, 0⟩, ⟨30, 40⟩⟩ 1 500).2
    (Or.inr (by rw [h2]; norm_num))
  refine ⟨?_, ?_, hb, ?_⟩
  · rw [ha, h1]; simp only [Vector2f.scale]; norm_num
  · rw [hp, h1]; simp only [Vector2f.scale, Vector2f.add]; norm_num
  · rw [hq]; simp only [Vector2f.scale, Vector2f.add]; norm_num

/-! ### Grid cell key and repeated resolution -/

theorem cell_axis_trunc (x : ℚ) :
    Int.tdiv (toInt x) GRID_SIZE = if 0 ≤ x then ⌊x / 200⌋ else ⌈x / 200⌉ := by
  rw [tdiv_grid]
  unfold toInt
  by_cases hx : 0 ≤ x
  · have h0 : 0 ≤ ⌊x⌋ := Int.floor_nonneg.mpr hx
    rw [if_pos hx, if_pos hx, if_pos h0]
    symm
    rw [Int.floor_eq_iff]
    have h1 : (⌊x⌋ : ℚ) ≤ x := Int.floor_le x
    have h2 : x < (⌊x⌋ : ℚ) + 1 := Int.lt_floor_add_one x
    have h3 : 200 * (⌊x⌋ / 200) ≤ ⌊x⌋ := by omega
    have h4 : ⌊x⌋ + 1 ≤ 200 * (⌊x⌋ / 200) + 200 := by omega
    have h3' : (200 : ℚ) * ((⌊x⌋ / 200 : Int) : ℚ) ≤ (⌊x⌋ : ℚ) := by exact_mod_cast h3
    have h4' : (⌊x⌋ : ℚ) + 1 ≤ 200 * ((⌊x⌋ / 200 : Int) : ℚ) + 200 := by exact_mod_cast h4
    constructor
    · rw [le_div_iff₀ (by norm_num)]; linarith
    · rw [div_lt_iff₀ (by norm_num)]; linarith
  · rw [if_neg hx, if_neg hx]
    push_neg at hx
    have h1 : x ≤ (⌈x⌉ : ℚ) := Int.le_ceil x
    have h2 : (⌈x⌉ : ℚ) < x + 1 := Int.ceil_lt_add_one x
    have hc : ⌈x⌉ ≤ 0 := Int.ceil_le.mpr (by exact_mod_cast hx.le)
    have hgoal : ∀ w : Int, 200 * w - 200 < ⌈x⌉ → ⌈x⌉ ≤ 200 * w → ⌈x / 200⌉ = w := by
      intro w hw1 hw2
      rw [Int.ceil_eq_iff]
      have hw1' : (200 : ℚ) * (w : ℚ) - 200 + 1 ≤ (⌈x⌉ : ℚ) := by exact_mod_cast (by omega : 200 * w - 200 + 1 ≤ ⌈x⌉)
      have hw2' : (⌈x⌉ : ℚ) ≤ 200 * (w : ℚ) := by exact_mod_cast hw2
      constructor
      · rw [lt_div_iff₀ (by norm_num)]; linarith
      · rw [div_le_iff₀ (by norm_num)]; linarith
    symm
    split_ifs with h0
    · exact hgoal _ (by omega) (by omega)
    · exact hgoal _ (by omega) (by omega)

/-- C18 fails as stated: the position `x = -50` is in cell 0, while
`floor(-50 / 200) = -1`. -/
theorem grid_cell_not_floor :
    getGridCell ⟨-50, 0⟩ = ⟨0, 0⟩ ∧ ⌊(-50 : ℚ) / 200⌋ = -1 := by
  have hceil : ⌈(-50 : ℚ) / 200⌉ = 0 := by
    rw [Int.ceil_eq_iff]; norm_num
  have hfloor0 : ⌊(0 : ℚ) / 200⌋ = 0 := by
    rw [Int.floor_eq_iff]; norm_num
  constructor
  · unfold getGridCell
    rw [cell_axis_trunc, cell_axis_trunc]
    have hneg : ¬ ((0 : ℚ) ≤ -50) := by norm_num
    rw [if_neg hneg, if_pos (le_refl (0 : ℚ)), hceil, hfloor0]
  · rw [Int.floor_eq_iff]; norm_num

/-- C18, amended: for every position within `int` range, the broad-phase cell is the
quotient `x / 200` truncated toward zero on each axis: `floor(x / 200)` for `x ≥ 0` and
`ceil(x / 200)` for `x < 0`. -/
theorem grid_cell_truncates (pos : Vector2f) (hx : inIntRange pos.x) (hy : inIntRange pos.y) :
    getGridCell pos
      = ⟨if 0 ≤ pos.x then ⌊pos.x / 200⌋ else ⌈pos.x / 200⌉,
         if 0 ≤ pos.y then ⌊pos.y / 200⌋ else ⌈pos.y / 200⌉⟩ := by
  unfold getGridCell
  rw [cell_axis_trunc pos.x, cell_axis_trunc pos.y]

/-- The position (-50, 450): cell `(ceil(-1/4), floor(9/4)) = (0, 2)`. -/
theorem grid_cell_truncates_run :
    getGridCell ⟨-50, 450⟩ = ⟨⌈(-50 : ℚ) / 200⌉, ⌊(450 : ℚ) / 200⌋⟩ := by
  have hx : toInt (-50) = -50 := by
    unfold toInt
    rw [if_neg (by norm_num)]
    exact_mod_cast Int.ceil_intCast (-50 : Int)
  have hy : toInt 450 = 450 := by
    unfold toInt
    rw [if_pos (by norm_num)]
    exact_mod_cast Int.floor_intCast (450 : Int)
  have h := grid_cell_truncates ⟨-50, 450⟩ (by unfold inIntRange; rw [hx]; norm_num)
    (by unfold inIntRange; rw [hy]; norm_num)
  rw [h]
  have hneg : ¬ ((0 : ℚ) ≤ -50) := by norm_num
  have hpos : (0 : ℚ) ≤ 450 := by norm_num
  simp only [hneg, hpos, if_true, if_false]

theorem Asteroid.collideAsteroid_again (sqrtf : ℚ → ℚ) (A B : Asteroid) :
    Asteroid.collideAsteroid sqrtf (Asteroid.collideAsteroid sqrtf A B).1
        (Asteroid.collideAsteroid sqrtf A B).2
      = Asteroid.collideAsteroid sqrtf A B := by
  by_cases hc : (!A.colided && !B.colided && A.toGameObject.intersects B.toGameObject) = true
  · by_cases hv : (B.acc.sub A.acc).x * (normalize sqrtf (B.pos.sub A.pos)).x
        + (B.acc.sub A.acc).y * (normalize sqrtf (B.pos.sub A.pos)).y > 0
    · have h1 : Asteroid.collideAsteroid sqrtf A B = (A, B) := by
        unfold Asteroid.collideAsteroid
        simp only [hc, if_true, hv]
      rw [h1]
      exact h1
    · have h1 : (Asteroid.collideAsteroid sqrtf A B).1.colided = true := by
        unfold Asteroid.collideAsteroid
        simp only [hc, if_true, hv, if_false]
      generalize Asteroid.collideAsteroid sqrtf A B = r at h1
      unfold Asteroid.collideAsteroid
      simp [h1]
  · have h1 : Asteroid.collideAsteroid sqrtf A B = (A, B) := by
      unfold Asteroid.collideAsteroid
      simp only [hc, Bool.false_eq_true, if_false]
    rw [h1]
    exact h1

/-- C19 (a contact is resolved at most once per frame): after `A.onColision(B)`,
a further `A.onColision(B)` or `B.onColision(A)` on the same pair before either
obstacle ticks leaves both obstacles (velocity accumulators and flags) and the static
flag unchanged; and an obstacle's `tick` clears its collided flag. -/
theorem contact_resolved_once (sqrtf : ℚ → ℚ) (A B : Asteroid) (isPlayerAttached : Bool)
    (now dt : ℚ) (player : Player) :
    let s := resolveAB sqrtf (.asteroid A) (.asteroid B) isPlayerAttached now dt
    resolveAB sqrtf s.1 s.2.1 s.2.2 now dt = s
      ∧ resolveBA sqrtf s.1 s.2.1 s.2.2 now dt = s
      ∧ (A.tick sqrtf player dt).1.colided = false := by
  dsimp only
  have hAB : resolveAB sqrtf (.asteroid A) (.asteroid B) isPlayerAttached now dt
      = (.asteroid (Asteroid.collideAsteroid sqrtf A B).1,
         .asteroid (Asteroid.collideAsteroid sqrtf A B).2, isPlayerAttached) := rfl
  have hagain : resolveAB sqrtf (.asteroid (Asteroid.collideAsteroid sqrtf A B).1)
      (.asteroid (Asteroid.collideAsteroid sqrtf A B).2) isPlayerAttached now dt
      = (.asteroid (Asteroid.collideAsteroid sqrtf A B).1,
         .asteroid (Asteroid.collideAsteroid sqrtf A B).2, isPlayerAttached) := by
    show ((Entity.asteroid (Asteroid.collideAsteroid sqrtf _ _).1),
      (Entity.asteroid (Asteroid.collideAsteroid sqrtf _ _).2), isPlayerAttached) = _
    rw [Asteroid.collideAsteroid_again]
  rw [hAB]
  refine ⟨hagain, ?_, rfl⟩
  show ((Entity.asteroid (Asteroid.collideAsteroid sqrtf (Asteroid.collideAsteroid sqrtf A B).2
      (Asteroid.collideAsteroid sqrtf A B).1).2),
    (Entity.asteroid (Asteroid.collideAsteroid sqrtf (Asteroid.collideAsteroid sqrtf A B).2
      (Asteroid.collideAsteroid sqrtf A B).1).1), isPlayerAttached) = _
  rw [Asteroid.collideAsteroid_comm, Asteroid.collideAsteroid_again]

/-! ### Death and the proximity timer -/

theorem Player.tick_dead (sqrtf : ℚ → ℚ) (p : Player) (dt : ℚ) :
    (p.tick sqrtf dt).dead = p.dead := by
  unfold Player.tick
  dsimp only
  split_ifs <;> rfl

theorem Player.dead_stays_dead (sqrtf : ℚ → ℚ) (p : Player) (dt fuel oxygen : ℚ)
    (hdead : p.dead = true) (hox : p.oxygen = 0) (hdt : 0 ≤ dt) :
    p.addResources fuel oxygen = p
      ∧ (p.tick sqrtf dt).oxygen = 0 ∧ (p.tick sqrtf dt).dead = true := by
  refine ⟨?_, ?_, ?_⟩
  · unfold Player.addResources
    rw [if_pos hdead]
  · rw [Player.tick_oxygen, hox]
    apply max_eq_left
    split_ifs <;> linarith
  · rw [Player.tick_dead]; exact hdead

/-- C16 on the decay path: a fresh player whose oxygen is run down to 0 by
`tick(100)` is dead but not flagged `dead`, so `addResources(2, 10)` (the trickle the
objective grants) raises oxygen to 10 and `isDead()` becomes false again. -/
theorem death_by_decay_reversed :
    (Player.tick Rat.sqrt (Player.new ⟨0, 0⟩ 0) 100).isDead = true
      ∧ (Player.tick Rat.sqrt (Player.new ⟨0, 0⟩ 0) 100).dead = false
      ∧ (Player.addResources (Player.tick Rat.sqrt (Player.new ⟨0, 0⟩ 0) 100) 2 10).oxygen = 10
      ∧ (Player.addResources (Player.tick Rat.sqrt (Player.new ⟨0, 0⟩ 0) 100) 2 10).isDead
          = false := by
  have hox : ((Player.new ⟨0, 0⟩ 0).tick Rat.sqrt 100).oxygen = 0 := by
    rw [Player.tick_oxygen]
    simp only [Player.new]
    norm_num
  have hdead : ((Player.new ⟨0, 0⟩ 0).tick Rat.sqrt 100).dead = false := by
    rw [Player.tick_dead]; rfl
  have hfuel : ((Player.new ⟨0, 0⟩ 0).tick Rat.sqrt 100).fuel = 100 := by
    rw [Player.tick_fuel]; rfl
  have hadd : (((Player.new ⟨0, 0⟩ 0).tick Rat.sqrt 100).addResources 2 10).oxygen = 10 := by
    generalize (Player.new ⟨0, 0⟩ 0).tick Rat.sqrt 100 = q at hox hdead hfuel
    unfold Player.addResources
    simp only [hdead, Bool.false_eq_true, if_false, hox, hfuel]
    norm_num
  refine ⟨?_, hdead, hadd, ?_⟩
  · simp only [Player.isDead, hox, le_refl, decide_True]
  · simp only [Player.isDead, hadd]
    norm_num

theorem Player.addResources_dtShip (p : Player) (fuel oxygen : ℚ) :
    (p.addResources fuel oxygen).dtShip = p.dtShip := by
  unfold Player.addResources
  dsimp only
  split_ifs <;> rfl

theorem Spaceship.frame_dtShip (self : Spaceship) (player : Player) (f : GameObject × ℚ) :
    (self.frame player f).dtShip
      = if self.PlayerRef = true then
          (if self.toGameObject.intersects f.1 = true then player.dtShip + f.2 else 0)
        else player.dtShip := by
  unfold Spaceship.frame Spaceship.tick
  by_cases href : self.PlayerRef = true
  · by_cases hint : self.toGameObject.intersects f.1 = true
    · simp [href, hint, Player.addResources_dtShip, Player.updateTimer]
    · simp [href, hint, Player.zeroPlayerTimer]
  · simp [href]

theorem Spaceship.trailingOverlap_snoc (self : Spaceship) (fs : List (GameObject × ℚ))
    (f : GameObject × ℚ) :
    self.trailingOverlap (fs ++ [f])
      = if self.toGameObject.intersects f.1 = true then self.trailingOverlap fs + f.2 else 0 := by
  unfold Spaceship.trailingOverlap
  rw [List.reverse_append, List.reverse_singleton, List.singleton_append, List.takeWhile_cons]
  by_cases hint : self.toGameObject.intersects f.1 = true
  · simp only [hint, if_true, List.map_cons, List.sum_cons]
    ring
  · simp [hint]

theorem Spaceship.frames_snoc (self : Spaceship) (player : Player) (fs : List (GameObject × ℚ))
    (f : GameObject × ℚ) :
    self.frames player (fs ++ [f]) = self.frame (self.frames player fs) f := by
  unfold Spaceship.frames
  rw [List.foldl_append]
  rfl

theorem Spaceship.trailingOverlap_nonneg (self : Spaceship) (fs : List (GameObject × ℚ))
    (hdt : ∀ f ∈ fs, 0 ≤ f.2) : 0 ≤ self.trailingOverlap fs := by
  unfold Spaceship.trailingOverlap
  apply List.sum_nonneg
  intro x hx
  obtain ⟨f, hf, rfl⟩ := List.mem_map.mp hx
  exact hdt f (List.mem_reverse.mp (List.takeWhile_subset _ hf))

theorem Spaceship.frames_dtShip (self : Spaceship) (player : Player)
    (fs : List (GameObject × ℚ)) (h0 : player.dtShip = 0) :
    (self.frames player fs).dtShip
      = if self.PlayerRef = true then self.trailingOverlap fs else 0 := by
  induction fs using List.reverseRecOn with
  | nil =>
    simp [Spaceship.frames, Spaceship.trailingOverlap, h0]
  | append_singleton fs f ih =>
    rw [Spaceship.frames_snoc, Spaceship.frame_dtShip, ih, Spaceship.trailingOverlap_snoc]
    by_cases href : self.PlayerRef = true
    · simp only [href, if_true]
    · simp only [href, Bool.false_eq_true, if_false]

/-- C17 (the proximity timer measures continuous overlap): over every sequence of
objective ticks with `dt ≥ 0`, starting from a timer of 0, the timer is not negative;
with the player recorded it equals the sum of `dt` over the maximal trailing run of
ticks in which the objective overlapped the player; and `isWon()` holds only if the
player is recorded and that sum exceeds 30. -/
theorem proximity_timer_trailing_run (self : Spaceship) (player : Player)
    (fs : List (GameObject × ℚ)) (h0 : player.dtShip = 0) (hdt : ∀ f ∈ fs, 0 ≤ f.2) :
    0 ≤ (self.frames player fs).dtShip
      ∧ (self.PlayerRef = true → (self.frames player fs).dtShip = self.trailingOverlap fs)
      ∧ ((self.frames player fs).isWon = true →
          self.PlayerRef = true ∧ self.trailingOverlap fs > 30) := by
  have h := Spaceship.frames_dtShip self player fs h0
  have hnn := Spaceship.trailingOverlap_nonneg self fs hdt
  refine ⟨?_, ?_, ?_⟩
  · rw [h]; split_ifs
    · exact hnn
    · exact le_refl 0
  · intro href
    rw [h, if_pos href]
  · intro hwon
    unfold Player.isWon at hwon
    rw [h] at hwon
    by_cases href : self.PlayerRef = true
    · rw [if_pos href] at hwon
      exact ⟨href, by simpa using hwon⟩
    · rw [if_neg href] at hwon
      simp at hwon
      linarith

/-- An objective 100 x 100 around the origin that has recorded the player. -/
theorem proximity_timer_trailing_run_frames :
    let ship : Spaceship :=
      { sprite := ⟨⟨0, 0⟩, ⟨50, 50⟩, ⟨1, 1⟩, 100, 100⟩, pos := ⟨0, 0⟩, PlayerRef := true }
    let near : GameObject := (Player.new ⟨0, 0⟩ 0).toGameObject
    let far : GameObject := (Player.new ⟨500, 0⟩ 0).toGameObject
    (ship.frames (Player.new ⟨0, 0⟩ 0) [(near, 20), (far, 1), (near, 3), (near, 4)]).dtShip = 7 := by
  intro ship near far
  have h := (proximity_timer_trailing_run ship (Player.new ⟨0, 0⟩ 0)
    [(near, 20), (far, 1), (near, 3), (near, 4)] rfl (by
      intro f hf
      simp only [List.mem_cons, List.mem_singleton, List.not_mem_nil, or_false] at hf
      rcases hf with rfl | rfl | rfl | rfl <;> norm_num)).2.1 rfl
  rw [h]
  have hnear : ship.toGameObject.intersects near = true := by
    simp [ship, near, Player.new, GameObject.setDefaultRect, GameObject.intersects,
      Sprite.getGlobalBounds, FloatRect.intersects]
    norm_num
  have hfar : ship.toGameObject.intersects far = false := by
    simp [ship, far, Player.new, GameObject.setDefaultRect, GameObject.intersects,
      Sprite.getGlobalBounds, FloatRect.intersects]
    norm_num
  simp only [Spaceship.trailingOverlap, List.reverse_cons, List.reverse_nil, List.nil_append,
    List.cons_append, List.takeWhile_cons, hnear, hfar, if_true, Bool.false_eq_true, if_false,
    List.map_cons, List.map_nil, List.sum_cons, List.sum_nil]
  norm_num

/-! ### Normalizing a zero-length vector -/

theorem normalizeChecked_of_ne (sqrtf : ℚ → ℚ) (vec : Vector2f)
    (hlen : VecLength sqrtf vec ≠ 0) :
    normalizeChecked sqrtf vec = some (normalize sqrtf vec) := by
  unfold normalizeChecked normalize Vector2f.divChecked
  simp only [hlen, if_false]

theorem normalizeChecked_of_zero (sqrtf : ℚ → ℚ) (vec : Vector2f)
    (hlen : VecLength sqrtf vec = 0) : normalizeChecked sqrtf vec = none := by
  unfold normalizeChecked Vector2f.divChecked
  simp only [hlen, if_true]

/-- C15 fails as stated: `normalize` of the zero vector divides by the zero length
instead of returning the zero vector, and two intersecting obstacles at the same
position are resolved with that quotient as collision normal. -/
theorem normalize_zero_divides :
    normalizeChecked Rat.sqrt ⟨0, 0⟩ = none
      ∧ normalizeChecked Rat.sqrt ⟨0, 0⟩ ≠ some ⟨0, 0⟩
      ∧ (Asteroid.at ⟨5, 5⟩ ⟨10, 0⟩).toGameObject.intersects
          (Asteroid.at ⟨5, 5⟩ ⟨-10, 0⟩).toGameObject = true
      ∧ Asteroid.collideAsteroidChecked Rat.sqrt (Asteroid.at ⟨5, 5⟩ ⟨10, 0⟩)
          (Asteroid.at ⟨5, 5⟩ ⟨-10, 0⟩) = none := by
  have hs : Rat.sqrt 0 = 0 := by simp [Rat.sqrt]
  have hz : normalizeChecked Rat.sqrt ⟨0, 0⟩ = none := by
    apply normalizeChecked_of_zero
    simp only [VecLength]
    norm_num [hs]
  have hint : (Asteroid.at ⟨5, 5⟩ ⟨10, 0⟩).toGameObject.intersects
      (Asteroid.at ⟨5, 5⟩ ⟨-10, 0⟩).toGameObject = true := by
    simp [Asteroid.at, GameObject.intersects, Sprite.getGlobalBounds, FloatRect.intersects]
  refine ⟨hz, by rw [hz]; simp, hint, ?_⟩
  have hsub : (Asteroid.at ⟨5, 5⟩ ⟨-10, 0⟩).pos.sub (Asteroid.at ⟨5, 5⟩ ⟨10, 0⟩).pos = ⟨0, 0⟩ := by
    simp [Asteroid.at, Vector2f.sub]
  unfold Asteroid.collideAsteroidChecked
  simp only [hint, hsub, hz]
  rfl

/-- C15, amended: `normalize` has no zero-length short-circuit.  It divides by the
computed length unconditionally: the result is `vec / |vec|` exactly when that length
is not zero, and a division by zero otherwise; and two obstacles whose computed
distance is not zero are resolved with the finite normal, as `Asteroid::onColision`
describes. -/
theorem normalize_divides_unguarded (sqrtf : ℚ → ℚ) (vec : Vector2f) (A B : Asteroid)
    (hdist : VecLength sqrtf (B.pos.sub A.pos) ≠ 0) :
    (VecLength sqrtf vec ≠ 0 →
        normalizeChecked sqrtf vec = some (vec.div (VecLength sqrtf vec)))
      ∧ (VecLength sqrtf vec = 0 → normalizeChecked sqrtf vec = none)
      ∧ Asteroid.collideAsteroidChecked sqrtf A B = some (Asteroid.collideAsteroid sqrtf A B) := by
  refine ⟨fun h => normalizeChecked_of_ne sqrtf vec h, normalizeChecked_of_zero sqrtf vec, ?_⟩
  unfold Asteroid.collideAsteroidChecked Asteroid.collideAsteroid
  simp only [normalizeChecked_of_ne sqrtf _ hdist]
  split_ifs <;> rfl

/-- The C1 scenario: the obstacles are 40 apart and the normal is (1, 0). -/
theorem normalize_divides_unguarded_scenario :
    normalizeChecked Rat.sqrt ⟨40, 0⟩ = some ⟨1, 0⟩
      ∧ Asteroid.collideAsteroidChecked Rat.sqrt (Asteroid.at ⟨0, 0⟩ ⟨10, 0⟩)
          (Asteroid.at ⟨40, 0⟩ ⟨-10, 0⟩)
        = some (Asteroid.collideAsteroid Rat.sqrt (Asteroid.at ⟨0, 0⟩ ⟨10, 0⟩)
            (Asteroid.at ⟨40, 0⟩ ⟨-10, 0⟩)) := by
  have hlen : VecLength Rat.sqrt ⟨40, 0⟩ = 40 := by
    have h : VecLength Rat.sqrt ⟨40, 0⟩ = Rat.sqrt (40 * 40) := by
      simp only [VecLength]; norm_num
    rw [h, Rat.sqrt_eq]; norm_num
  have hsub : (Asteroid.at ⟨40, 0⟩ ⟨-10, 0⟩).pos.sub (Asteroid.at ⟨0, 0⟩ ⟨10, 0⟩).pos = ⟨40, 0⟩ := by
    simp [Asteroid.at, Vector2f.sub]
  have h := normalize_divides_unguarded Rat.sqrt ⟨40, 0⟩ (Asteroid.at ⟨0, 0⟩ ⟨10, 0⟩)
    (Asteroid.at ⟨40, 0⟩ ⟨-10, 0⟩) (by rw [hsub, hlen]; norm_num)
  refine ⟨?_, h.2.2⟩
  rw [h.1 (by rw [hlen]; norm_num), hlen]
  simp [Vector2f.div]

/-! ### The attachment flag and destruction -/

theorem Level.collidePlayer_attach (sqrtf : ℚ → ℚ) (lv : Level) (i : Nat) (now dt : ℚ)
    (a : Asteroid) (ha : lv.obstacles[i]? = some a) (hflag : lv.isPlayerAttached = false)
    (hint : a.toGameObject.intersects lv.player.toGameObject = true) :
    lv.collidePlayer sqrtf i now dt
      = { player := lv.player.Kill now,
          obstacles := lv.obstacles.set i { a with PlayerRef := true },
          isPlayerAttached := true } := by
  unfold Level.collidePlayer
  rw [ha]
  simp only [Asteroid.onColision, hflag, Bool.not_false, if_true, hint]

theorem Player.Kill_pos (p : Player) (now : ℚ) : (p.Kill now).pos = p.pos := by
  unfold Player.Kill
  split_ifs <;> rfl

theorem Player.Kill_toGameObject (p : Player) (now : ℚ) :
    (p.Kill now).toGameObject = p.toGameObject := by
  unfold Player.Kill
  split_ifs <;> rfl

/-- C13 at three obstacles: `A` and `C` overlap the player at the origin, `B` is 2000
away.  `A` attaches and sets the flag; the despawn pass erases `B`, whose destructor
clears the flag although `B` holds nothing; `C` then attaches as well, so two live
obstacles hold the player. -/
theorem second_obstacle_attaches :
    let lv0 : Level :=
      { player := Player.new ⟨0, 0⟩ 0,
        obstacles := [Asteroid.at ⟨0, 0⟩ ⟨0, 0⟩, Asteroid.at ⟨2000, 0⟩ ⟨0, 0⟩,
          Asteroid.at ⟨10, 0⟩ ⟨0, 0⟩],
        isPlayerAttached := false }
    let lv1 := lv0.collidePlayer Rat.sqrt 0 20 1
    let lv2 := lv1.despawn Rat.sqrt 1000
    let lv3 := lv2.collidePlayer Rat.sqrt 1 21 1
    (lv1.holders = 1 ∧ lv1.isPlayerAttached = true)
      ∧ (lv2.obstacles.length = 2 ∧ lv2.holders = 1 ∧ lv2.isPlayerAttached = false)
      ∧ (lv3.obstacles.length = 2 ∧ lv3.holders = 2) := by
  intro lv0 lv1 lv2 lv3
  have hintA : (Asteroid.at ⟨0, 0⟩ ⟨0, 0⟩).toGameObject.intersects
      (Player.new ⟨0, 0⟩ 0).toGameObject = true := by
    simp [Asteroid.at, Player.new, GameObject.setDefaultRect, GameObject.intersects,
      Sprite.getGlobalBounds, FloatRect.intersects]
    norm_num
  have hintC : (Asteroid.at ⟨10, 0⟩ ⟨0, 0⟩).toGameObject.intersects
      (Player.new ⟨0, 0⟩ 0).toGameObject = true := by
    simp [Asteroid.at, Player.new, GameObject.setDefaultRect, GameObject.intersects,
      Sprite.getGlobalBounds, FloatRect.intersects]
    norm_num
  have h1 : lv1 =
      { player := (Player.new ⟨0, 0⟩ 0).Kill 20,
        obstacles := [{ Asteroid.at ⟨0, 0⟩ ⟨0, 0⟩ with PlayerRef := true },
          Asteroid.at ⟨2000, 0⟩ ⟨0, 0⟩, Asteroid.at ⟨10, 0⟩ ⟨0, 0⟩],
        isPlayerAttached := true } :=
    Level.collidePlayer_attach Rat.sqrt lv0 0 20 1 (Asteroid.at ⟨0, 0⟩ ⟨0, 0⟩) rfl rfl hintA
  have hs0 : Rat.sqrt 0 = 0 := by simp [Rat.sqrt]
  have hdA : PointLen Rat.sqrt ⟨0, 0⟩ ⟨0, 0⟩ = 0 := by
    simp only [PointLen, VecLength]; norm_num [hs0]
  have hdB : PointLen Rat.sqrt ⟨0, 0⟩ ⟨2000, 0⟩ = 2000 := by
    have h : PointLen Rat.sqrt ⟨0, 0⟩ ⟨2000, 0⟩ = Rat.sqrt (2000 * 2000) := by
      simp only [PointLen, VecLength]; norm_num
    rw [h, Rat.sqrt_eq]; norm_num
  have hdC : PointLen Rat.sqrt ⟨0, 0⟩ ⟨10, 0⟩ = 10 := by
    have h : PointLen Rat.sqrt ⟨0, 0⟩ ⟨10, 0⟩ = Rat.sqrt (10 * 10) := by
      simp only [PointLen, VecLength]; norm_num
    rw [h, Rat.sqrt_eq]; norm_num
  have hpos : ((Player.new ⟨0, 0⟩ 0).Kill 20).pos = ⟨0, 0⟩ := by rw [Player.Kill_pos]; rfl
  have h2 : lv2 =
      { player := (Player.new ⟨0, 0⟩ 0).Kill 20,
        obstacles := [{ Asteroid.at ⟨0, 0⟩ ⟨0, 0⟩ with PlayerRef := true },
          Asteroid.at ⟨10, 0⟩ ⟨0, 0⟩],
        isPlayerAttached := false } := by
    show lv1.despawn Rat.sqrt 1000 = _
    rw [h1]
    unfold Level.despawn
    simp only [hpos, List.filter_cons, List.filter_nil, Asteroid.at, hdA, hdB, hdC,
      Asteroid.destructor, List.foldl_cons, List.foldl_nil]
    norm_num
  have h3 : lv3 =
      { player := ((Player.new ⟨0, 0⟩ 0).Kill 20).Kill 21,
        obstacles := [{ Asteroid.at ⟨0, 0⟩ ⟨0, 0⟩ with PlayerRef := true },
          { Asteroid.at ⟨10, 0⟩ ⟨0, 0⟩ with PlayerRef := true }],
        isPlayerAttached := true } := by
    show lv2.collidePlayer Rat.sqrt 1 21 1 = _
    rw [h2]
    exact Level.collidePlayer_attach Rat.sqrt _ 1 21 1 (Asteroid.at ⟨10, 0⟩ ⟨0, 0⟩) rfl rfl
      (by rw [Player.Kill_toGameObject]; exact hintC)
  rw [h1, h2, h3]
  simp [Level.holders, Asteroid.at]

end AmongTheStars
